import Mathlib

/-!
# MSALoginDialog: the Microsoft device-code login dialog

A shallow embedding of `launcher/ui/dialogs/MSALoginDialog.{h,cpp}`.

* Part 1 models the pieces of Qt the dialog relies on: `QString::arg`,
  `QObject::connect`, signal emission, `QDialog::done/accept/reject/exec`.
* Part 2 is the dialog itself: constructor, `exec`, the four slots and
  `newAccount`, each following the C++ body statement by statement.
* Part 3 is the Login Task state machine. Its code (`AccountTask`, `AuthFlow`)
  is not among the sources, so it is written down from the specification.
* Part 4 holds the definitions the statements are written with (the wiring
  that `exec` establishes, sample attempts, invariants).
* Part 5 holds the theorems.
-/

set_option autoImplicit false

/-! ## Part 1: Qt -/

namespace QString

/-- Scanner position inside a format string: plain text, just after `%`,
just after `%L`, or after the first digit `d` of a place marker whose source
text so far is `raw`. -/
inductive Scan where
  | text
  | pct
  | pctL
  | digit (raw : List Char) (d : Nat)
deriving DecidableEq, Repr

/-- A piece of a format string: a literal character, or a place marker
`%n` / `%Ln` (`1 ≤ n ≤ 99` in well-formed text) together with its source text. -/
inductive Piece where
  | lit (c : Char)
  | marker (n : Nat) (raw : List Char)
deriving DecidableEq, Repr

/-- Value of an ASCII digit. -/
def digitValue (c : Char) : Nat := c.toNat - 48

/-- Split a format string into literal characters and place markers. A place
marker is `%`, an optional `L`, and one or two decimal digits; a `%` that does
not start a marker is a literal character. -/
def pieces : Scan → List Char → List Piece
  | .text, [] => []
  | .pct, [] => [.lit '%']
  | .pctL, [] => [.lit '%', .lit 'L']
  | .digit raw d, [] => [.marker d raw]
  | .text, c :: cs =>
      if c = '%' then pieces .pct cs else .lit c :: pieces .text cs
  | .pct, c :: cs =>
      if c = 'L' then pieces .pctL cs
      else if c.isDigit then pieces (.digit ['%', c] (digitValue c)) cs
      else if c = '%' then .lit '%' :: pieces .pct cs
      else .lit '%' :: .lit c :: pieces .text cs
  | .pctL, c :: cs =>
      if c.isDigit then pieces (.digit ['%', 'L', c] (digitValue c)) cs
      else if c = '%' then .lit '%' :: .lit 'L' :: pieces .pct cs
      else .lit '%' :: .lit 'L' :: .lit c :: pieces .text cs
  | .digit raw d, c :: cs =>
      if c.isDigit then .marker (10 * d + digitValue c) (raw ++ [c]) :: pieces .text cs
      else if c = '%' then .marker d raw :: pieces .pct cs
      else .marker d raw :: .lit c :: pieces .text cs

/-- The place-marker numbers occurring in a piece list, in order. -/
def markerNumbers : List Piece → List Nat
  | [] => []
  | .lit _ :: ps => markerNumbers ps
  | .marker n _ :: ps => n :: markerNumbers ps

/-- The smallest element of a list of numbers, if any. -/
def lowest : List Nat → Option Nat
  | [] => none
  | n :: ns => match lowest ns with
    | none => some n
    | some m => some (min n m)

/-- Write the pieces back out, replacing each marker that `subst` knows by the
given text and leaving every other marker as it was written. -/
def render (subst : Nat → Option (List Char)) : List Piece → List Char
  | [] => []
  | .lit c :: ps => c :: render subst ps
  | .marker n raw :: ps => (subst n).getD raw ++ render subst ps

/-- Qt `QString::arg(const QString& a)`: every occurrence of the lowest-numbered
place marker is replaced by `a`; the text of `a` itself is not scanned. A
format string without a marker is returned unchanged. -/
def arg (fmt a : String) : String :=
  let ps := pieces .text fmt.data
  match lowest (markerNumbers ps) with
  | none => fmt
  | some m => ⟨render (fun n => if n = m then some a.data else none) ps⟩

/-- Qt `QString::arg(const QString& a1, const QString& a2)`: the lowest-numbered
marker is replaced by `a1` and the next-lowest by `a2`, in one pass over the
format string, so that marker-like text inside `a1` or `a2` is left alone. -/
def arg2 (fmt a1 a2 : String) : String :=
  let ps := pieces .text fmt.data
  match lowest (markerNumbers ps) with
  | none => fmt
  | some m1 =>
    let second := lowest ((markerNumbers ps).filter (fun n => decide (n ≠ m1)))
    ⟨render (fun n => if n = m1 then some a1.data
                      else if some n = second then some a2.data else none) ps⟩

end QString

/-- Qt `QObject::tr`: with no translator installed the source text is returned. -/
def tr (sourceText : String) : String := sourceText

/-- A `QUrl`, known to the dialog only through `toString()`. -/
structure QUrl where
  toString : String
deriving DecidableEq, Repr

/-- Identity of a heap object (an account or a task). -/
abbrev ObjId := Nat

/-- The signals of `Task` / `AccountTask` the dialog subscribes to, with the
arguments they carry. -/
inductive TaskSignal where
  | failed (reason : String)
  | succeeded
  | aborted
  | status (status : String)
  | showVerificationUriAndCode (uri : QUrl) (code : String) (expiresIn : Int)
  | hideVerificationUriAndCode
deriving DecidableEq, Repr

/-- Signal names as used in `connect`. -/
inductive SignalName where
  | failed | succeeded | aborted | status
  | showVerificationUriAndCode | hideVerificationUriAndCode
  | clicked
deriving DecidableEq, Repr

/-- The name of the signal a task emission belongs to. -/
def TaskSignal.name : TaskSignal → SignalName
  | .failed _ => .failed
  | .succeeded => .succeeded
  | .aborted => .aborted
  | .status _ => .status
  | .showVerificationUriAndCode _ _ _ => .showVerificationUriAndCode
  | .hideVerificationUriAndCode => .hideVerificationUriAndCode

/-- Whether the signal ends the task: `failed`, `succeeded` or `aborted`. -/
def TaskSignal.isTerminal : TaskSignal → Bool
  | .failed _ => true
  | .succeeded => true
  | .aborted => true
  | _ => false

/-- Objects that send signals to or from the dialog. -/
inductive Sender where
  | task (t : ObjId)
  | copyCode
  | cancelButton
deriving DecidableEq, Repr

/-- Objects whose slots the dialog connects to. -/
inductive Receiver where
  | dialog
  | task (t : ObjId)
deriving DecidableEq, Repr

/-- The slots named in the dialog's `connect` calls. `copyCodeToClipboard` is the
lambda of the constructor; `abort` is `AccountTask::abort`. -/
inductive Slot where
  | reject
  | onTaskSucceeded
  | onTaskStatus
  | showVerificationUriAndCode
  | hideVerificationUriAndCode
  | copyCodeToClipboard
  | abort
deriving DecidableEq, Repr

/-- One established signal-slot connection. -/
structure Connection where
  sender : Sender
  signal : SignalName
  receiver : Receiver
  slot : Slot
deriving DecidableEq, Repr

/-- Qt `QObject::connect(sender, signal, receiver, slot)`. Qt refuses the call,
leaving the connections as they were, when the sender or the receiver pointer
is null. -/
def connect (sender : Option Sender) (signal : SignalName) (receiver : Option Receiver)
    (slot : Slot) (conns : List Connection) : List Connection :=
  match sender, receiver with
  | some s, some r => conns ++ [⟨s, signal, r, slot⟩]
  | _, _ => conns

/-- The widgets of `Ui::MSALoginDialog` the code reads or writes. -/
structure Ui where
  stackedWidget_currentIndex : Int
  code_text : String
  codeInfo_text : String
  status_text : String
deriving DecidableEq, Repr

/-- The `QDialog::DialogCode` value `Rejected`. -/
def QDialog.Rejected : Int := 0

/-- The `QDialog::DialogCode` value `Accepted`. -/
def QDialog.Accepted : Int := 1

/-- An `MSALoginDialog` object: the members declared in the header, the
`QDialog` base state (`result`, and whether the local event loop of
`QDialog::exec` is running), and the connections the dialog has made. -/
structure MSALoginDialog where
  ui : Ui
  m_account : Option ObjId
  m_loginTask : Option ObjId
  result : Int
  inEventLoop : Bool
  connections : List Connection
deriving DecidableEq, Repr

/-- Qt `QDialog::done(r)`: stores the result code and hides the dialog, which
makes the local event loop of `QDialog::exec` exit if it is running. Called
while no such loop runs, it only stores the result code. -/
def QDialog.done (r : Int) (d : MSALoginDialog) : MSALoginDialog :=
  { d with result := r, inEventLoop := false }

/-- Qt `QDialog::accept()`. -/
def QDialog.accept (d : MSALoginDialog) : MSALoginDialog := QDialog.done QDialog.Accepted d

/-- Qt `QDialog::reject()`. -/
def QDialog.reject (d : MSALoginDialog) : MSALoginDialog := QDialog.done QDialog.Rejected d

/-- Methods the dialog can invoke on a login task. -/
inductive TaskMethod where
  | start
  | abort
deriving DecidableEq, Repr

/-- A method invocation on a task object. -/
structure TaskCall where
  task : ObjId
  method : TaskMethod
deriving DecidableEq, Repr

/-- The enumeration `QMessageBox::Icon`. -/
inductive Icon where
  | NoIcon | Information | Warning | Critical | Question
deriving DecidableEq, Repr

/-- A message box put on screen by `CustomMessageBox::selectable(..)->show()`. -/
structure MessageBox where
  title : String
  text : String
  icon : Icon
deriving DecidableEq, Repr

/-- Everything outside the dialog object that the code touches: the heap (next
unused object identity, and for each login task the account that made it), the
log of method calls on tasks, the clipboard, and the message boxes shown. -/
structure World where
  nextId : ObjId
  taskAccount : List (ObjId × ObjId)
  calls : List TaskCall
  clipboard : String
  boxes : List MessageBox
deriving DecidableEq, Repr

/-- The program state while a dialog exists. -/
structure State where
  world : World
  dlg : MSALoginDialog
deriving DecidableEq, Repr

/-- Buttons of the form that the constructor connects. -/
inductive Button where
  | copyCode
  | cancel
deriving DecidableEq, Repr

/-- What the dialog's event loop can be handed: a signal emitted by the login
task of this attempt, a button click, or a request to close the window (Esc or
the window's close button), for which Qt calls `QDialog::reject()`. -/
inductive Event where
  | task (sig : TaskSignal)
  | click (b : Button)
  | close
deriving DecidableEq, Repr

/-- What the code takes from parts of the repository that are not among the
sources, and from the user.
* `setupUi`: the widget contents right after the generated `setupUi`.
* `cancelRejects`: whether the form wires the button box's `rejected()` to the
  dialog's `reject()`.
* `startEmits`: the signals the login task emits synchronously inside `start()`.
* `loop`: the events the dialog's event loop would process, in order.
* `failReason`: `Task::failReason()` as read by `newAccount`; `none` is the
  null `QString`.
* `getStatus`: `Task::getStatus()` as read by `newAccount`. -/
structure Env where
  setupUi : Ui
  cancelRejects : Bool
  startEmits : List TaskSignal
  loop : List Event
  failReason : Option String
  getStatus : String
deriving DecidableEq, Repr

/-! ## Part 2: the dialog -/

/-- Modelled from the spec: `MinecraftAccount::createBlankMSA()`, whose source
file is missing. It makes a new account object, one that did not exist before. -/
def MinecraftAccount.createBlankMSA (w : World) : ObjId × World :=
  (w.nextId, { w with nextId := w.nextId + 1 })

/-- Modelled from the spec: `MinecraftAccount::loginMSA()`, whose source file is
missing. "A new attempt requires a new Login Task instance": the call makes a
new task object that belongs to the account it was called on. -/
def MinecraftAccount.loginMSA (account : ObjId) (w : World) : ObjId × World :=
  (w.nextId, { w with nextId := w.nextId + 1,
                      taskAccount := (w.nextId, account) :: w.taskAccount })

namespace MSALoginDialog

/-- Source: `void MSALoginDialog::showVerificationUriAndCode(const QUrl& uri,
const QString& code, [[maybe_unused]] int expiresIn)`. -/
def showVerificationUriAndCode (uri : QUrl) (code : String) (_expiresIn : Int)
    (d : MSALoginDialog) : MSALoginDialog :=
  let ui1 := { d.ui with stackedWidget_currentIndex := 1 }
  let urlString := uri.toString
  let linkString := QString.arg2 "<a href=\"%1\">%2</a>" urlString urlString
  let ui2 := { ui1 with code_text := code }
  let info := QString.arg (tr "<p>Enter this code into %1 and choose your account.</p>") linkString
  let ui3 := { ui2 with codeInfo_text := info }
  { d with ui := ui3 }

/-- Source: `void MSALoginDialog::hideVerificationUriAndCode()`. -/
def hideVerificationUriAndCode (d : MSALoginDialog) : MSALoginDialog :=
  { d with ui := { d.ui with stackedWidget_currentIndex := 0 } }

/-- Source: `void MSALoginDialog::onTaskSucceeded()`. -/
def onTaskSucceeded (d : MSALoginDialog) : MSALoginDialog :=
  QDialog.accept d

/-- Source: `void MSALoginDialog::onTaskStatus(const QString& status)`. -/
def onTaskStatus (status : String) (d : MSALoginDialog) : MSALoginDialog :=
  { d with ui := { d.ui with status_text := status } }

end MSALoginDialog

/-- Run the slot of one connection with the arguments of the signal being
emitted. A slot may take fewer arguments than the signal carries. -/
def invoke (c : Connection) (args : Option TaskSignal) (s : State) : State :=
  match c.receiver, c.slot, args with
  | .dialog, .reject, _ => { s with dlg := QDialog.reject s.dlg }
  | .dialog, .onTaskSucceeded, _ => { s with dlg := s.dlg.onTaskSucceeded }
  | .dialog, .onTaskStatus, some (.status st) => { s with dlg := s.dlg.onTaskStatus st }
  | .dialog, .showVerificationUriAndCode, some (.showVerificationUriAndCode uri code expiresIn) =>
      { s with dlg := s.dlg.showVerificationUriAndCode uri code expiresIn }
  | .dialog, .hideVerificationUriAndCode, _ => { s with dlg := s.dlg.hideVerificationUriAndCode }
  | .dialog, .copyCodeToClipboard, _ =>
      { s with world := { s.world with clipboard := s.dlg.ui.code_text } }
  | .task t, .abort, _ =>
      { s with world := { s.world with calls := s.world.calls ++ [⟨t, .abort⟩] } }
  | _, _, _ => s

/-- Emission of a signal: every slot connected to this signal of this sender
runs, in the order the connections were made. -/
def emit (sender : Sender) (signal : SignalName) (args : Option TaskSignal) (s : State) : State :=
  (s.dlg.connections.filter (fun c => decide (c.sender = sender ∧ c.signal = signal))).foldl
    (fun s c => invoke c args s) s

/-- The call `Task::start()` as the dialog sees it: the call is made on task
`t`, and the signals the task emits before `start()` returns reach their slots
at once. -/
def AccountTask.start (env : Env) (t : ObjId) (s : State) : State :=
  env.startEmits.foldl (fun s sig => emit (.task t) sig.name (some sig) s)
    { s with world := { s.world with calls := s.world.calls ++ [⟨t, .start⟩] } }

/-- What one event of the dialog's event loop does. -/
def handleEvent (env : Env) (e : Event) (s : State) : State :=
  match e with
  | .task sig =>
      match s.dlg.m_loginTask with
      | some t => emit (.task t) sig.name (some sig) s
      | none => s
  | .click .copyCode => emit .copyCode .clicked none s
  | .click .cancel =>
      let s1 := if env.cancelRejects then { s with dlg := QDialog.reject s.dlg } else s
      emit .cancelButton .clicked none s1
  | .close => { s with dlg := QDialog.reject s.dlg }

/-- The local event loop of `QDialog::exec`: events are processed one by one
until a handler has closed the dialog. `none` when the events run out first:
the loop then blocks for ever. -/
def QDialog.eventLoop (env : Env) : List Event → State → Option State
  | [], _ => none
  | e :: es, s =>
      let s1 := handleEvent env e s
      if s1.dlg.inEventLoop then QDialog.eventLoop env es s1 else some s1

/-- Qt `int QDialog::exec()`: resets the result code, shows the dialog as a
modal dialog, runs a local event loop until `done` is called from inside that
loop, and returns the result code. A call of `accept()` or `reject()` made
before `exec()` was entered does not make it return. -/
def QDialog.exec (env : Env) (s : State) : Option (Int × State) :=
  let s1 := { s with dlg := { s.dlg with result := 0, inEventLoop := true } }
  (QDialog.eventLoop env env.loop s1).map (fun s2 => (s2.dlg.result, s2))

namespace MSALoginDialog

/-- Source: the constructor `MSALoginDialog::MSALoginDialog(QWidget* parent)`.
The members `m_account` and `m_loginTask` are not initialised by the constructor
and so start out null; the font set-up and `setDefault(false)` touch nothing
that is modelled. -/
def ctor (env : Env) (w : World) : State :=
  let d0 : MSALoginDialog :=
    { ui := env.setupUi, m_account := none, m_loginTask := none,
      result := QDialog.Rejected, inEventLoop := false, connections := [] }
  let c1 := connect (some .copyCode) .clicked (some .dialog) .copyCodeToClipboard d0.connections
  let c2 := connect (some .cancelButton) .clicked (d0.m_loginTask.map Receiver.task) .abort c1
  { world := w, dlg := { d0 with connections := c2 } }

/-- The first part of `MSALoginDialog::exec()`, up to but not including
`m_loginTask->start()`: the account and the task are created and stored, and
the six connections are made. Returns the new task with the state. -/
def execSetup (s : State) : ObjId × State :=
  let (account, w1) := MinecraftAccount.createBlankMSA s.world
  let d1 := { s.dlg with m_account := some account }
  let (task, w2) := MinecraftAccount.loginMSA account w1
  let d2 := { d1 with m_loginTask := some task }
  let sender := d2.m_loginTask.map Sender.task
  let c1 := connect sender .failed (some .dialog) .reject d2.connections
  let c2 := connect sender .succeeded (some .dialog) .onTaskSucceeded c1
  let c3 := connect sender .aborted (some .dialog) .reject c2
  let c4 := connect sender .status (some .dialog) .onTaskStatus c3
  let c5 := connect sender .showVerificationUriAndCode (some .dialog) .showVerificationUriAndCode c4
  let c6 := connect sender .hideVerificationUriAndCode (some .dialog) .hideVerificationUriAndCode c5
  (task, { world := w2, dlg := { d2 with connections := c6 } })

/-- Source: `int MSALoginDialog::exec()`. -/
def exec (env : Env) (s : State) : Option (Int × State) :=
  let (task, s1) := execSetup s
  let s2 := AccountTask.start env task s1
  QDialog.exec env s2

/-- What a call of `newAccount` leaves behind: the pointer it returns (`none` is
`nullptr`) and the state at that moment, with the dialog as it was when it went
out of scope. -/
structure Outcome where
  account : Option ObjId
  final : State
deriving DecidableEq, Repr

/-- Source: `MinecraftAccountPtr MSALoginDialog::newAccount(QWidget* parent)`. -/
def newAccount (env : Env) (w : World) : Option Outcome :=
  let dlg := ctor env w
  match exec env dlg with
  | none => none
  | some (r, s) =>
    if r = QDialog.Accepted then
      some ⟨s.dlg.m_account, s⟩
    else if env.failReason.isSome then
      some ⟨none, { s with world := { s.world with boxes :=
        s.world.boxes ++ [⟨tr "Failed", env.getStatus, Icon.Critical⟩] } }⟩
    else
      some ⟨none, s⟩

end MSALoginDialog

/-- The message boxes a call of `newAccount` starting in world `w` has shown. -/
def boxesShown (w : World) (out : MSALoginDialog.Outcome) : List MessageBox :=
  out.final.world.boxes.drop w.boxes.length

/-- The method calls on tasks a call of `newAccount` starting in world `w` has made. -/
def callsMade (w : World) (out : MSALoginDialog.Outcome) : List TaskCall :=
  out.final.world.calls.drop w.calls.length

/-! ## Part 3: the Login Task, from the specification -/

namespace LoginTask

/-- Modelled from the spec: `FlowState` of section 3; the task class itself
(`AccountTask` / `AuthFlow`) is missing from the sources. -/
inductive FlowState where
  | Idle | RequestingCode | AwaitingUserAction | Polling | Succeeded | Failed | Aborted
deriving DecidableEq, Repr

/-- Modelled from the spec: the terminal states are Succeeded, Failed, Aborted. -/
def FlowState.isTerminal : FlowState → Bool
  | .Succeeded => true
  | .Failed => true
  | .Aborted => true
  | _ => false

/-- Modelled from the spec: `PollOutcome` of section 3. -/
inductive PollOutcome where
  | Pending
  | SlowDown
  | Success (credential : String)
  | Expired
  | Denied
  | TransientError (message : String)
  | FatalError (message : String)
deriving DecidableEq, Repr

/-- Modelled from the spec: `DeviceAuthorization` of section 3. Times are in
seconds. -/
structure DeviceAuthorization where
  verificationUri : QUrl
  userCode : String
  deviceCode : String
  pollIntervalSeconds : Nat
  expiresAt : Nat
deriving DecidableEq, Repr

/-- Modelled from the spec: `StatusEvent` of section 3. -/
inductive StatusEvent where
  | CodeIssued (uri : QUrl) (code : String) (expiresIn : Nat)
  | CodeWithdrawn
  | StatusMessage (text : String)
  | Succeeded (credential : String)
  | Failed (reason : String)
  | Aborted
deriving DecidableEq, Repr

/-- Modelled from the spec: the terminal events are Succeeded, Failed, Aborted. -/
def StatusEvent.isTerminal : StatusEvent → Bool
  | .Succeeded _ => true
  | .Failed _ => true
  | .Aborted => true
  | _ => false

/-- Modelled from the spec: what can happen to a Login Task. `start()` and
`abort()` come from the caller (section 6); the reply to `requestDeviceCode()`,
the timer tick and the reply to `pollToken()` come from the Device-Flow Client
and the timer (section 4). `now` is the time at which the input arrives. -/
inductive Input where
  | start
  | deviceCodeGranted (now : Nat) (auth : DeviceAuthorization)
  | deviceCodeError (reason : String)
  | tick (now : Nat)
  | pollReply (outcome : PollOutcome)
  | abort
deriving DecidableEq, Repr

/-- Modelled from the spec: the state a Login Task owns. -/
structure Task where
  state : FlowState
  auth : Option DeviceAuthorization
  interval : Nat
deriving DecidableEq, Repr

/-- Modelled from the spec: a task that has not been started. -/
def Task.init : Task := { state := .Idle, auth := none, interval := 0 }

/-- Modelled from the spec: the fixed step by which SlowDown widens the poll
interval ("e.g. +5s"). -/
def slowDownStep : Nat := 5

/-- Modelled from the spec: the transition to Failed while a code is on show:
"emit CodeWithdrawn then Failed(reason); stop timer". -/
def Task.fail (t : Task) (reason : String) : Task × List StatusEvent :=
  ({ t with state := .Failed }, [.CodeWithdrawn, .Failed reason])

/-- Modelled from the spec: section 4.2, "On PollOutcome". -/
def Task.onPollOutcome (t : Task) : PollOutcome → Task × List StatusEvent
  | .Pending =>
      ({ t with state := .AwaitingUserAction }, [.StatusMessage "Waiting for authorization"])
  | .SlowDown =>
      ({ t with state := .AwaitingUserAction, interval := t.interval + slowDownStep }, [])
  | .TransientError message =>
      ({ t with state := .AwaitingUserAction }, [.StatusMessage message])
  | .Success credential =>
      ({ t with state := .Succeeded }, [.CodeWithdrawn, .Succeeded credential])
  | .Expired => t.fail "Expired"
  | .Denied => t.fail "Denied"
  | .FatalError message => t.fail message

/-- Modelled from the spec: a scheduled tick. "If the scheduled tick would fire
past expiresAt, it treats this identically to an Expired PollOutcome without
making the network call"; otherwise a poll call goes out. -/
def Task.onTick (t : Task) (now : Nat) : Task × List StatusEvent :=
  match t.auth with
  | some auth =>
      if auth.expiresAt ≤ now then t.onPollOutcome .Expired
      else ({ t with state := .Polling }, [])
  | none => ({ t with state := .Polling }, [])

/-- Modelled from the spec: the transitions of section 4.2. An input that does
not apply in the current state is discarded, and a task in a terminal state
discards every input. -/
def Task.step (t : Task) (i : Input) : Task × List StatusEvent :=
  if t.state.isTerminal then (t, [])
  else match i, t.state with
    | .abort, _ => ({ t with state := .Aborted }, [.Aborted])
    | .start, .Idle => ({ t with state := .RequestingCode }, [])
    | .deviceCodeGranted now auth, .RequestingCode =>
        ({ state := .AwaitingUserAction, auth := some auth, interval := auth.pollIntervalSeconds },
         [.CodeIssued auth.verificationUri auth.userCode (auth.expiresAt - now)])
    | .deviceCodeError reason, .RequestingCode =>
        ({ t with state := .Failed }, [.Failed reason])
    | .tick now, .AwaitingUserAction => t.onTick now
    | .pollReply outcome, .Polling => t.onPollOutcome outcome
    | _, _ => (t, [])

/-- Modelled from the spec: feeding a sequence of inputs to a task; the result
is the task afterwards and the events it has emitted, in emission order. -/
def Task.run (t : Task) : List Input → Task × List StatusEvent
  | [] => (t, [])
  | i :: rest =>
      let r1 := t.step i
      let r2 := Task.run r1.1 rest
      (r2.1, r1.2 ++ r2.2)

/-- Modelled from the spec: the subscription interface of section 6, which the
dialog sees as signals: `onCodeIssued` is `showVerificationUriAndCode`,
`onCodeWithdrawn` is `hideVerificationUriAndCode`, `onStatus` is `status`. -/
def StatusEvent.toSignal : StatusEvent → TaskSignal
  | .CodeIssued uri code expiresIn => .showVerificationUriAndCode uri code expiresIn
  | .CodeWithdrawn => .hideVerificationUriAndCode
  | .StatusMessage text => .status text
  | .Succeeded _ => .succeeded
  | .Failed reason => .failed reason
  | .Aborted => .aborted

end LoginTask

/-- The slots that run when task `t` emits `sig`, given the connections `conns`. -/
def slotsRun (conns : List Connection) (t : ObjId) (sig : TaskSignal) : List Slot :=
  (conns.filter (fun c => decide (c.sender = Sender.task t ∧ c.signal = sig.name))).map
    (fun c => c.slot)

/-- How many times a slot subscribed to `failed`, `succeeded` or `aborted` runs
when task `t` emits the signals `sigs`. -/
def terminalHandlerRuns (conns : List Connection) (t : ObjId) (sigs : List TaskSignal) : Nat :=
  ((sigs.filter TaskSignal.isTerminal).map (fun sig => (slotsRun conns t sig).length)).sum

/-! ## Part 4: definitions used in the statements -/

/-- An empty world: nothing allocated, called, copied or shown yet. -/
def World.empty : World :=
  { nextId := 0, taskAccount := [], calls := [], clipboard := "", boxes := [] }

/-- A form with two pages showing page 0 and empty labels. -/
def Ui.blank : Ui :=
  { stackedWidget_currentIndex := 0, code_text := "", codeInfo_text := "", status_text := "" }

namespace LoginTask

/-- The events of a run that ends in state `st`: if `st` is terminal, one
terminal event preceded by non-terminal ones; otherwise no terminal event. -/
def Shape (st : FlowState) (evs : List StatusEvent) : Prop :=
  if st.isTerminal = true then
    ∃ pre e, evs = pre ++ [e] ∧ e.isTerminal = true ∧ ∀ x ∈ pre, x.isTerminal = false
  else ∀ x ∈ evs, x.isTerminal = false

end LoginTask

/-- The connections held by a dialog that `newAccount` has constructed, once
`exec` has subscribed it to its task `t`. -/
def wiring (t : ObjId) : List Connection :=
  [ ⟨.copyCode, .clicked, .dialog, .copyCodeToClipboard⟩,
    ⟨.task t, .failed, .dialog, .reject⟩,
    ⟨.task t, .succeeded, .dialog, .onTaskSucceeded⟩,
    ⟨.task t, .aborted, .dialog, .reject⟩,
    ⟨.task t, .status, .dialog, .onTaskStatus⟩,
    ⟨.task t, .showVerificationUriAndCode, .dialog, .showVerificationUriAndCode⟩,
    ⟨.task t, .hideVerificationUriAndCode, .dialog, .hideVerificationUriAndCode⟩ ]

/-- The dialog slot that `exec` subscribes to each signal of the task, applied
to the arguments the signal carries. -/
def MSALoginDialog.handler : TaskSignal → MSALoginDialog → MSALoginDialog
  | .failed _ => QDialog.reject
  | .succeeded => MSALoginDialog.onTaskSucceeded
  | .aborted => QDialog.reject
  | .status st => MSALoginDialog.onTaskStatus st
  | .showVerificationUriAndCode uri code expiresIn =>
      MSALoginDialog.showVerificationUriAndCode uri code expiresIn
  | .hideVerificationUriAndCode => MSALoginDialog.hideVerificationUriAndCode

/-- The state in which `exec` of a freshly constructed dialog calls `start()`. -/
def readyState (env : Env) (w : World) : State :=
  { world := { w with nextId := w.nextId + 2,
                      taskAccount := (w.nextId + 1, w.nextId) :: w.taskAccount },
    dlg := { ui := env.setupUi, m_account := some w.nextId, m_loginTask := some (w.nextId + 1),
             result := QDialog.Rejected, inEventLoop := false,
             connections := wiring (w.nextId + 1) } }

/-- A dialog subscribed to task `t` exactly as `exec` leaves it. -/
def Wired (t : ObjId) (s : State) : Prop :=
  s.dlg.connections = wiring t ∧ s.dlg.m_loginTask = some t

/-- What an event does to a dialog that is wired as `exec` leaves it. -/
def react (env : Env) (e : Event) (s : State) : State :=
  match e with
  | .task sig => { s with dlg := s.dlg.handler sig }
  | .click .copyCode => { s with world := { s.world with clipboard := s.dlg.ui.code_text } }
  | .click .cancel => if env.cancelRejects then { s with dlg := QDialog.reject s.dlg } else s
  | .close => { s with dlg := QDialog.reject s.dlg }

/-- Whether an event closes a dialog that is wired as `exec` leaves it. -/
def closes (env : Env) : Event → Bool
  | .task sig => sig.isTerminal
  | .click .copyCode => false
  | .click .cancel => env.cancelRejects
  | .close => true

/-- The parts of the state that no event changes for a wired dialog. -/
def SameAttempt (s0 s : State) : Prop :=
  s.dlg.connections = s0.dlg.connections ∧ s.dlg.m_loginTask = s0.dlg.m_loginTask
  ∧ s.dlg.m_account = s0.dlg.m_account ∧ s.world.nextId = s0.world.nextId
  ∧ s.world.taskAccount = s0.world.taskAccount ∧ s.world.calls = s0.world.calls
  ∧ s.world.boxes = s0.world.boxes

/-- Running the events `es` one after the other, none of them ending the loop. -/
def reactAll (env : Env) (es : List Event) (s : State) : State :=
  es.foldl (fun s e => react env e s) s

/-- The dialog after its handlers have run for the signals `sigs`, in order. -/
def handlers (sigs : List TaskSignal) (d : MSALoginDialog) : MSALoginDialog :=
  sigs.foldl (fun d sig => d.handler sig) d

/-- The state in which `QDialog::exec` enters its event loop during a call of
`newAccount`: `start()` has been called and the handlers have run for what the
task emitted inside it. -/
def loopEntry (env : Env) (w : World) : State :=
  { world := { (readyState env w).world with calls := w.calls ++ [⟨w.nextId + 1, .start⟩] },
    dlg := { handlers env.startEmits (readyState env w).dlg with
             result := 0, inEventLoop := true } }

/-- How `newAccount` finishes once `exec` has returned `r` in state `s`. -/
def finish (env : Env) (r : Int) (s : State) : MSALoginDialog.Outcome :=
  if r = QDialog.Accepted then ⟨s.dlg.m_account, s⟩
  else if env.failReason.isSome then
    ⟨none, { s with world := { s.world with boxes :=
      s.world.boxes ++ [⟨"Failed", env.getStatus, Icon.Critical⟩] } }⟩
  else ⟨none, s⟩

/-- An attempt in which the task reports a status inside `start()`, shows a
code, and then fails; the task's status text differs from its fail reason. -/
def Env.denied : Env :=
  { setupUi := Ui.blank, cancelRejects := false,
    startEmits := [.status "Initializing"],
    loop := [.task (.showVerificationUriAndCode ⟨"https://provider/device"⟩ "ABCD-1234" 900),
             .task .hideVerificationUriAndCode,
             .task (.failed "access_denied")],
    failReason := some "access_denied",
    getStatus := "Encountered an error during authentication." }

/-- An attempt that the task ends with `aborted`, leaving a null fail reason. -/
def Env.abortedNull : Env :=
  { setupUi := Ui.blank, cancelRejects := false, startEmits := [],
    loop := [.task .aborted], failReason := none, getStatus := "Working..." }

/-- An attempt that fails with an empty, non-null fail reason. -/
def Env.failedEmpty : Env :=
  { setupUi := Ui.blank, cancelRejects := true, startEmits := [],
    loop := [.task (.failed "")], failReason := some "", getStatus := "" }

/-- An attempt during which the user clicks Cancel while the task is running
(the form does not wire Cancel to `reject()`), and later closes the window. -/
def Env.cancelClicked : Env :=
  { setupUi := Ui.blank, cancelRejects := false, startEmits := [.status "Initializing"],
    loop := [.task (.status "Waiting"), .click .cancel, .task (.status "Still waiting"), .close],
    failReason := none, getStatus := "Still waiting" }

/-- The outcome of the attempt `env` started in the empty world when the loop
ends with its event `last` after the events `pre`. -/
def Env.outcomeAfter (env : Env) (pre : List Event) (last : Event) : MSALoginDialog.Outcome :=
  let s := react env last (reactAll env pre (loopEntry env World.empty))
  finish env s.dlg.result s

/-- The events of an attempt that the dialog's event loop processes: those up
to and including the first one that closes the dialog. What comes later finds
no dialog: `newAccount` has returned and the dialog is destroyed. -/
def processed (env : Env) : List Event → List Event
  | [] => []
  | e :: es => if closes env e then [e] else e :: processed env es

/-- The task signals among a list of events, in order. -/
def signalsOf : List Event → List TaskSignal
  | [] => []
  | .task sig :: es => sig :: signalsOf es
  | _ :: es => signalsOf es

/-- The signals the task emits to the dialog during an attempt: those inside
`start()`, followed by those the event loop processes. -/
def Env.delivered (env : Env) : List TaskSignal :=
  env.startEmits ++ signalsOf (processed env env.loop)

/-- An attempt that the task ends with `succeeded` while the event loop runs. -/
def Env.succeededInLoop : Env :=
  { setupUi := Ui.blank, cancelRejects := false, startEmits := [.status "Initializing"],
    loop := [.click .copyCode, .task .succeeded, .close], failReason := none,
    getStatus := "Authentication task succeeded." }

/-- An attempt in which the code is shown inside `start()` and the rest of the
trace arrives while the event loop runs. -/
def Env.traceInLoop : Env :=
  { setupUi := Ui.blank, cancelRejects := false,
    startEmits := [.showVerificationUriAndCode ⟨"https://provider/device"⟩ "ABCD-1234" 900],
    loop := [.task (.status "Waiting"), .task (.status "Still waiting"),
             .task .hideVerificationUriAndCode, .task .succeeded],
    failReason := none, getStatus := "Authentication task succeeded." }

/-- The `start()` calls among a list of calls. -/
def startCalls (calls : List TaskCall) : List TaskCall :=
  calls.filter (fun c => decide (c.method = TaskMethod.start))

/-- What no slot and no event changes, whatever connections the dialog holds:
the account and task members, the heap, and the `start()` calls made so far. -/
def Kept (s0 s : State) : Prop :=
  s.dlg.m_account = s0.dlg.m_account ∧ s.dlg.m_loginTask = s0.dlg.m_loginTask
  ∧ s.world.nextId = s0.world.nextId ∧ s.world.taskAccount = s0.world.taskAccount
  ∧ startCalls s.world.calls = startCalls s0.world.calls

/-- The dialog and world left behind by a first, successful attempt. -/
def State.afterFirstAttempt : State :=
  (Env.succeededInLoop.outcomeAfter [.click .copyCode] (.task .succeeded)).final

/-- A run in which the caller aborts while a poll is in flight, the poll then
succeeds, and the caller aborts once more. -/
def LoginTask.abortedRun : List LoginTask.Input :=
  [ .start,
    .deviceCodeGranted 0 ⟨⟨"https://provider/device"⟩, "ABCD-1234", "device-1", 5, 900⟩,
    .tick 5, .pollReply .Pending, .tick 10, .abort, .pollReply (.Success "tok-1"), .abort ]

/-! ## Part 5: theorems -/

/-! ### The Login Task ends at most once -/

namespace LoginTask

theorem Task.step_of_terminal (t : Task) (i : Input) (h : t.state.isTerminal = true) :
    t.step i = (t, []) := by
  simp [Task.step, h]

theorem Task.run_of_terminal (t : Task) (h : t.state.isTerminal = true) (is : List Input) :
    t.run is = (t, []) := by
  induction is with
  | nil => rfl
  | cons i rest ih => simp [Task.run, Task.step_of_terminal t i h, ih]

theorem Task.onPollOutcome_shape (t : Task) (o : PollOutcome) :
    Shape (t.onPollOutcome o).1.state (t.onPollOutcome o).2 := by
  cases o <;> simp [Task.onPollOutcome, Task.fail, Shape, FlowState.isTerminal, StatusEvent.isTerminal]
  all_goals first
    | exact ⟨[.CodeWithdrawn], _, rfl, rfl, by simp [StatusEvent.isTerminal]⟩

theorem Task.onTick_shape (t : Task) (now : Nat) :
    Shape (t.onTick now).1.state (t.onTick now).2 := by
  unfold Task.onTick
  cases t.auth with
  | none => simp [Shape, FlowState.isTerminal]
  | some auth =>
      by_cases hexp : auth.expiresAt ≤ now
      · simpa [hexp] using Task.onPollOutcome_shape t .Expired
      · simp [hexp, Shape, FlowState.isTerminal]

theorem Task.step_shape (t : Task) (i : Input) (h : t.state.isTerminal = false) :
    Shape (t.step i).1.state (t.step i).2 := by
  cases i with
  | abort =>
      simp only [Task.step, h]
      exact (if_pos rfl).mpr ⟨[], _, rfl, rfl, by simp⟩
  | start =>
      cases hst : t.state <;> simp_all [Task.step, Shape, FlowState.isTerminal]
  | deviceCodeGranted now auth =>
      cases hst : t.state <;>
        simp_all [Task.step, Shape, FlowState.isTerminal, StatusEvent.isTerminal]
  | deviceCodeError reason =>
      cases hst : t.state <;>
        simp_all [Task.step, Shape, FlowState.isTerminal, StatusEvent.isTerminal]
      exact ⟨[], _, rfl, rfl, by simp⟩
  | tick now =>
      cases hst : t.state <;> simp_all [Task.step, Shape, FlowState.isTerminal]
      have := Task.onTick_shape t now
      simpa [Shape, FlowState.isTerminal] using this
  | pollReply outcome =>
      cases hst : t.state <;> simp_all [Task.step, Shape, FlowState.isTerminal]
      exact Task.onPollOutcome_shape t outcome

theorem Task.run_shape (t : Task) (h : t.state.isTerminal = false) (is : List Input) :
    Shape (t.run is).1.state (t.run is).2 := by
  induction is generalizing t with
  | nil => simp [Task.run, Shape, h]
  | cons i rest ih =>
      have hs := Task.step_shape t i h
      simp only [Task.run]
      cases hterm : (t.step i).1.state.isTerminal with
      | true =>
          rw [Task.run_of_terminal _ hterm]
          simpa using hs
      | false =>
          have hr := ih (t.step i).1 hterm
          have hpre : ∀ x ∈ (t.step i).2, x.isTerminal = false := by
            simpa [Shape, hterm] using hs
          unfold Shape at hr ⊢
          split
          · rename_i hfin
            rw [if_pos hfin] at hr
            obtain ⟨pre, e, he, het, hp⟩ := hr
            refine ⟨(t.step i).2 ++ pre, e, ?_, het, ?_⟩
            · rw [he, List.append_assoc]
            · intro x hx
              rcases List.mem_append.mp hx with hx | hx
              · exact hpre x hx
              · exact hp x hx
          · rename_i hfin
            rw [if_neg hfin] at hr
            intro x hx
            rcases List.mem_append.mp hx with hx | hx
            · exact hpre x hx
            · exact hr x hx

end LoginTask

/-! ### The text shown with the code -/

theorem arg2_link (u : String) :
    QString.arg2 "<a href=\"%1\">%2</a>" u u = "<a href=\"" ++ u ++ "\">" ++ u ++ "</a>" := by
  apply String.ext
  simp [QString.arg2, QString.pieces, QString.markerNumbers, QString.lowest, QString.render,
    QString.digitValue]

theorem arg_codeInfo (link : String) :
    QString.arg "<p>Enter this code into %1 and choose your account.</p>" link
      = "<p>Enter this code into " ++ link ++ " and choose your account.</p>" := by
  apply String.ext
  simp [QString.arg, QString.pieces, QString.markerNumbers, QString.lowest, QString.render,
    QString.digitValue]

/-- C5. For every uri, code and expiresIn, after
`showVerificationUriAndCode(uri, code, expiresIn)` the dialog shows page index 1,
the code label holds exactly `code`, the info label holds exactly
`<p>Enter this code into <a href="U">U</a> and choose your account.</p>` with
`U = uri.toString()` in both places, whatever characters `U` contains, and the
resulting dialog is the same for every value of `expiresIn`. -/
theorem showVerificationUriAndCode_display (uri : QUrl) (code : String) (expiresIn : Int)
    (d : MSALoginDialog) :
    (d.showVerificationUriAndCode uri code expiresIn).ui.stackedWidget_currentIndex = 1
    ∧ (d.showVerificationUriAndCode uri code expiresIn).ui.code_text = code
    ∧ (d.showVerificationUriAndCode uri code expiresIn).ui.codeInfo_text
        = "<p>Enter this code into <a href=\"" ++ uri.toString ++ "\">" ++ uri.toString
            ++ "</a> and choose your account.</p>"
    ∧ (∀ other : Int, d.showVerificationUriAndCode uri code other
        = d.showVerificationUriAndCode uri code expiresIn) := by
  refine ⟨rfl, rfl, ?_, fun _ => rfl⟩
  simp only [MSALoginDialog.showVerificationUriAndCode, tr, arg2_link, arg_codeInfo]
  apply String.ext
  simp

/-! ### What `exec` has wired up -/

theorem execSetup_ctor (env : Env) (w : World) :
    MSALoginDialog.execSetup (MSALoginDialog.ctor env w) = (w.nextId + 1, readyState env w) := by
  rfl

theorem emit_task_wired (t : ObjId) (sig : TaskSignal) (s : State)
    (h : s.dlg.connections = wiring t) :
    emit (.task t) sig.name (some sig) s = { s with dlg := s.dlg.handler sig } := by
  cases sig <;>
    simp [emit, h, wiring, TaskSignal.name, invoke, MSALoginDialog.handler]

theorem emit_copyCode_wired (t : ObjId) (s : State) (h : s.dlg.connections = wiring t) :
    emit .copyCode .clicked none s
      = { s with world := { s.world with clipboard := s.dlg.ui.code_text } } := by
  simp [emit, h, wiring, invoke]

theorem emit_cancel_wired (t : ObjId) (s : State) (h : s.dlg.connections = wiring t) :
    emit .cancelButton .clicked none s = s := by
  simp [emit, h, wiring]

theorem handler_connections (sig : TaskSignal) (d : MSALoginDialog) :
    (d.handler sig).connections = d.connections
    ∧ (d.handler sig).m_loginTask = d.m_loginTask
    ∧ (d.handler sig).m_account = d.m_account := by
  cases sig <;> exact ⟨rfl, rfl, rfl⟩

theorem handleEvent_wired (env : Env) (t : ObjId) (e : Event) (s : State) (h : Wired t s) :
    handleEvent env e s = react env e s := by
  obtain ⟨hc, ht⟩ := h
  cases e with
  | task sig => simp [handleEvent, react, ht, emit_task_wired t sig s hc]
  | click b =>
      cases b with
      | copyCode => simp [handleEvent, react, emit_copyCode_wired t s hc]
      | cancel =>
          cases hcr : env.cancelRejects
          · simp [handleEvent, react, hcr, emit_cancel_wired t s hc]
          · have hc2 : ({ s with dlg := QDialog.reject s.dlg } : State).dlg.connections
                = wiring t := hc
            simp [handleEvent, react, hcr, emit_cancel_wired t _ hc2]
  | close => rfl

theorem sameAttempt_refl (s : State) : SameAttempt s s :=
  ⟨rfl, rfl, rfl, rfl, rfl, rfl, rfl⟩

theorem sameAttempt_trans {a b c : State} (h1 : SameAttempt a b) (h2 : SameAttempt b c) :
    SameAttempt a c := by
  obtain ⟨a1, a2, a3, a4, a5, a6, a7⟩ := h1
  obtain ⟨b1, b2, b3, b4, b5, b6, b7⟩ := h2
  exact ⟨b1.trans a1, b2.trans a2, b3.trans a3, b4.trans a4, b5.trans a5, b6.trans a6,
    b7.trans a7⟩

theorem react_same (env : Env) (e : Event) (s : State) : SameAttempt s (react env e s) := by
  cases e with
  | task sig =>
      obtain ⟨h1, h2, h3⟩ := handler_connections sig s.dlg
      exact ⟨h1, h2, h3, rfl, rfl, rfl, rfl⟩
  | click b =>
      cases b with
      | copyCode => exact ⟨rfl, rfl, rfl, rfl, rfl, rfl, rfl⟩
      | cancel =>
          cases hcr : env.cancelRejects
          · simp only [react, hcr]
            exact sameAttempt_refl s
          · simp only [react, hcr]
            exact ⟨rfl, rfl, rfl, rfl, rfl, rfl, rfl⟩
  | close => exact ⟨rfl, rfl, rfl, rfl, rfl, rfl, rfl⟩

theorem Wired.of_same {t : ObjId} {s0 s : State} (h : Wired t s0) (hs : SameAttempt s0 s) :
    Wired t s :=
  ⟨hs.1.trans h.1, hs.2.1.trans h.2⟩

theorem react_closes (env : Env) (e : Event) (s : State) (h : closes env e = true) :
    (react env e s).dlg.inEventLoop = false := by
  cases e with
  | task sig => cases sig <;> simp_all [closes, TaskSignal.isTerminal, react,
      MSALoginDialog.handler, QDialog.reject, QDialog.done, MSALoginDialog.onTaskSucceeded,
      QDialog.accept]
  | click b => cases b <;> simp_all [closes, react, QDialog.reject, QDialog.done]
  | close => rfl

theorem react_stays_open (env : Env) (e : Event) (s : State) (h : closes env e = false) :
    (react env e s).dlg.inEventLoop = s.dlg.inEventLoop := by
  cases e with
  | task sig => cases sig <;> simp_all [closes, TaskSignal.isTerminal, react,
      MSALoginDialog.handler, MSALoginDialog.onTaskStatus,
      MSALoginDialog.showVerificationUriAndCode, MSALoginDialog.hideVerificationUriAndCode]
  | click b => cases b <;> simp_all [closes, react]
  | close => simp [closes] at h

theorem reactAll_same (env : Env) (es : List Event) (s : State) :
    SameAttempt s (reactAll env es s) := by
  induction es generalizing s with
  | nil => exact sameAttempt_refl s
  | cons e rest ih => exact sameAttempt_trans (react_same env e s) (ih (react env e s))

theorem eventLoop_closing (env : Env) (t : ObjId) (pre : List Event) (e : Event)
    (post : List Event) (s : State) (hw : Wired t s) (hopen : s.dlg.inEventLoop = true)
    (hpre : ∀ x ∈ pre, closes env x = false) (he : closes env e = true) :
    QDialog.eventLoop env (pre ++ e :: post) s = some (react env e (reactAll env pre s)) := by
  induction pre generalizing s with
  | nil =>
      simp [QDialog.eventLoop, reactAll, handleEvent_wired env t e s hw, react_closes env e s he]
  | cons x rest ih =>
      have hx : closes env x = false := hpre x (List.mem_cons_self _ _)
      have hopen2 : (react env x s).dlg.inEventLoop = true := by
        rw [react_stays_open env x s hx]; exact hopen
      have hw2 : Wired t (react env x s) := hw.of_same (react_same env x s)
      have hrec := ih (react env x s) hw2 hopen2 (fun y hy => hpre y (List.mem_cons_of_mem _ hy))
      simp only [List.cons_append, QDialog.eventLoop, handleEvent_wired env t x s hw, hopen2]
      simpa [reactAll] using hrec

theorem eventLoop_same (env : Env) (t : ObjId) (es : List Event) (s s1 : State)
    (hw : Wired t s) (h : QDialog.eventLoop env es s = some s1) :
    SameAttempt s s1 ∧ s1.dlg.inEventLoop = false := by
  induction es generalizing s with
  | nil => simp [QDialog.eventLoop] at h
  | cons e rest ih =>
      simp only [QDialog.eventLoop, handleEvent_wired env t e s hw] at h
      by_cases hopen : (react env e s).dlg.inEventLoop = true
      · rw [if_pos hopen] at h
        have := ih (react env e s) (hw.of_same (react_same env e s)) h
        exact ⟨sameAttempt_trans (react_same env e s) this.1, this.2⟩
      · rw [if_neg hopen] at h
        cases h
        exact ⟨react_same env e s, by simpa using hopen⟩

theorem handlers_connections (sigs : List TaskSignal) (d : MSALoginDialog) :
    (handlers sigs d).connections = d.connections
    ∧ (handlers sigs d).m_loginTask = d.m_loginTask
    ∧ (handlers sigs d).m_account = d.m_account := by
  induction sigs generalizing d with
  | nil => exact ⟨rfl, rfl, rfl⟩
  | cons sig rest ih =>
      obtain ⟨h1, h2, h3⟩ := handler_connections sig d
      obtain ⟨r1, r2, r3⟩ := ih (d.handler sig)
      exact ⟨r1.trans h1, r2.trans h2, r3.trans h3⟩

theorem emit_all_wired (t : ObjId) (sigs : List TaskSignal) (s : State)
    (h : s.dlg.connections = wiring t) :
    sigs.foldl (fun s sig => emit (.task t) sig.name (some sig) s) s
      = { s with dlg := handlers sigs s.dlg } := by
  induction sigs generalizing s with
  | nil => rfl
  | cons sig rest ih =>
      have h2 : ({ s with dlg := s.dlg.handler sig } : State).dlg.connections = wiring t :=
        (handler_connections sig s.dlg).1.trans h
      simp only [List.foldl_cons, emit_task_wired t sig s h]
      rw [ih _ h2]
      rfl

theorem exec_ctor (env : Env) (w : World) :
    MSALoginDialog.exec env (MSALoginDialog.ctor env w)
      = (QDialog.eventLoop env env.loop (loopEntry env w)).map (fun s => (s.dlg.result, s)) := by
  simp only [MSALoginDialog.exec, execSetup_ctor, AccountTask.start, QDialog.exec]
  rw [emit_all_wired (w.nextId + 1) env.startEmits _ rfl]
  rfl

theorem loopEntry_wired (env : Env) (w : World) : Wired (w.nextId + 1) (loopEntry env w) := by
  obtain ⟨h1, h2, _⟩ := handlers_connections env.startEmits (readyState env w).dlg
  exact ⟨h1, h2⟩

theorem loopEntry_account (env : Env) (w : World) :
    (loopEntry env w).dlg.m_account = some w.nextId :=
  (handlers_connections env.startEmits (readyState env w).dlg).2.2

theorem exec_ctor_result (env : Env) (w : World) (r : Int) (s : State)
    (h : MSALoginDialog.exec env (MSALoginDialog.ctor env w) = some (r, s)) :
    r = s.dlg.result ∧ SameAttempt (loopEntry env w) s ∧ s.dlg.inEventLoop = false := by
  rw [exec_ctor] at h
  cases hl : QDialog.eventLoop env env.loop (loopEntry env w) with
  | none => simp [hl] at h
  | some s1 =>
      simp only [hl, Option.map_some', Option.some.injEq, Prod.mk.injEq] at h
      obtain ⟨hr, hs⟩ := h
      subst hs
      have := eventLoop_same env (w.nextId + 1) env.loop _ s1 (loopEntry_wired env w) hl
      exact ⟨hr.symm, this.1, this.2⟩

theorem newAccount_of_exec (env : Env) (w : World) (r : Int) (s : State)
    (h : MSALoginDialog.exec env (MSALoginDialog.ctor env w) = some (r, s)) :
    MSALoginDialog.newAccount env w = some (finish env r s) := by
  simp only [MSALoginDialog.newAccount, h, finish, tr]
  split <;> [rfl; (split <;> rfl)]

theorem exec_of_newAccount (env : Env) (w : World) (out : MSALoginDialog.Outcome)
    (h : MSALoginDialog.newAccount env w = some out) :
    ∃ r s, MSALoginDialog.exec env (MSALoginDialog.ctor env w) = some (r, s)
      ∧ out = finish env r s := by
  cases hx : MSALoginDialog.exec env (MSALoginDialog.ctor env w) with
  | none => simp [MSALoginDialog.newAccount, hx] at h
  | some p =>
      obtain ⟨r, s⟩ := p
      rw [newAccount_of_exec env w r s hx] at h
      exact ⟨r, s, rfl, (Option.some.inj h).symm⟩

theorem boxesShown_finish (env : Env) (w : World) (r : Int) (s : State)
    (hb : s.world.boxes = w.boxes) :
    boxesShown w (finish env r s)
      = if r ≠ QDialog.Accepted ∧ env.failReason ≠ none
        then [⟨"Failed", env.getStatus, Icon.Critical⟩] else [] := by
  unfold finish boxesShown
  by_cases hr : r = QDialog.Accepted
  · simp [hr, hb]
  · cases hf : env.failReason <;> simp [hr, hf, hb]

/-! ### Sample attempts -/

/-! ### `newAccount`: success and failure -/

/-- C1. For every sequence of login-task events (and user actions) delivered to
the dialog during one `newAccount` call, the call never both returns a non-null
account and shows the "Failed" message box. -/
theorem newAccount_not_success_and_failure (env : Env) (w : World)
    (out : MSALoginDialog.Outcome) (h : MSALoginDialog.newAccount env w = some out) :
    ¬ (out.account ≠ none ∧ boxesShown w out ≠ []) := by
  obtain ⟨r, s, hx, rfl⟩ := exec_of_newAccount env w out h
  obtain ⟨_, hsame, _⟩ := exec_ctor_result env w r s hx
  have hb : s.world.boxes = w.boxes := hsame.2.2.2.2.2.2
  rintro ⟨hacc, hbox⟩
  rw [boxesShown_finish env w r s hb] at hbox
  by_cases hr : r = QDialog.Accepted
  · simp [hr] at hbox
  · simp [finish, hr] at hacc
    split at hacc <;> simp at hacc

theorem newAccount_not_success_and_failure_witness :
    MSALoginDialog.newAccount Env.denied World.empty
      = some (Env.denied.outcomeAfter (Env.denied.loop.take 2) (.task (.failed "access_denied")))
    ∧ ¬ ((Env.denied.outcomeAfter (Env.denied.loop.take 2)
            (.task (.failed "access_denied"))).account ≠ none
         ∧ boxesShown World.empty (Env.denied.outcomeAfter (Env.denied.loop.take 2)
            (.task (.failed "access_denied"))) ≠ []) :=
  ⟨rfl, newAccount_not_success_and_failure Env.denied World.empty _ rfl⟩

/-- C9. Once `exec` has returned the result code `r`, `newAccount` returns, and
it shows the "Failed" message box if and only if `r` is not Accepted and the
task's `failReason()` is non-null; the box is the only one shown and carries the
task's status text. In particular an attempt that is not accepted (ended by
`aborted`, or dismissed) with a null fail reason returns null and shows no box,
and one with an empty but non-null fail reason still shows the box. -/
theorem failed_box_iff (env : Env) (w : World) (r : Int) (s : State)
    (h : MSALoginDialog.exec env (MSALoginDialog.ctor env w) = some (r, s)) :
    ∃ out, MSALoginDialog.newAccount env w = some out
      ∧ (boxesShown w out ≠ [] ↔ (r ≠ QDialog.Accepted ∧ env.failReason ≠ none))
      ∧ (boxesShown w out ≠ [] →
          boxesShown w out = [⟨"Failed", env.getStatus, Icon.Critical⟩])
      ∧ (r ≠ QDialog.Accepted → env.failReason = none →
          out.account = none ∧ boxesShown w out = [])
      ∧ (r ≠ QDialog.Accepted → env.failReason = some "" →
          out.account = none ∧ boxesShown w out = [⟨"Failed", env.getStatus, Icon.Critical⟩]) := by
  obtain ⟨_, hsame, _⟩ := exec_ctor_result env w r s h
  have hb : s.world.boxes = w.boxes := hsame.2.2.2.2.2.2
  refine ⟨finish env r s, newAccount_of_exec env w r s h, ?_, ?_, ?_, ?_⟩
  · rw [boxesShown_finish env w r s hb]
    by_cases hc : r ≠ QDialog.Accepted ∧ env.failReason ≠ none <;> simp [hc]
  · rw [boxesShown_finish env w r s hb]
    by_cases hc : r ≠ QDialog.Accepted ∧ env.failReason ≠ none <;> simp [hc]
  · intro hr hf
    rw [boxesShown_finish env w r s hb]
    simp [finish, hr, hf]
  · intro hr hf
    rw [boxesShown_finish env w r s hb]
    simp [finish, hr, hf]

theorem failed_box_iff_witness :
    (∃ out, MSALoginDialog.newAccount Env.abortedNull World.empty = some out
      ∧ out.account = none ∧ boxesShown World.empty out = [])
    ∧ (∃ out, MSALoginDialog.newAccount Env.failedEmpty World.empty = some out
      ∧ out.account = none ∧ boxesShown World.empty out = [⟨"Failed", "", Icon.Critical⟩]) := by
  constructor
  · obtain ⟨out, h1, _, _, h4, _⟩ := failed_box_iff Env.abortedNull World.empty 0
      (react Env.abortedNull (.task .aborted) (loopEntry Env.abortedNull World.empty)) rfl
    exact ⟨out, h1, h4 (by decide) rfl⟩
  · obtain ⟨out, h1, _, _, _, h5⟩ := failed_box_iff Env.failedEmpty World.empty 0
      (react Env.failedEmpty (.task (.failed "")) (loopEntry Env.failedEmpty World.empty)) rfl
    exact ⟨out, h1, h5 (by decide) rfl⟩

/-! ### The Cancel button -/

/-- C4, as the code behaves. The constructor connects the Cancel button to
`AccountTask::abort` with `m_loginTask.get()` as receiver while `m_loginTask` is
still null, so no connection is made: the dialog built by `newAccount` has no
connection from the Cancel button, and whatever events the loop processes,
Cancel clicks included, the only call made on a task during `newAccount` is the
one `start()` of `exec`; `abort()` is never invoked. -/
theorem cancel_click_invokes_no_abort (env : Env) (w : World) :
    (∀ c ∈ (MSALoginDialog.ctor env w).dlg.connections, c.sender ≠ Sender.cancelButton)
    ∧ (∀ c ∈ (MSALoginDialog.execSetup (MSALoginDialog.ctor env w)).2.dlg.connections,
        c.sender ≠ Sender.cancelButton ∧ c.slot ≠ Slot.abort)
    ∧ (∀ out, MSALoginDialog.newAccount env w = some out →
        callsMade w out = [⟨w.nextId + 1, TaskMethod.start⟩]) := by
  refine ⟨?_, ?_, ?_⟩
  · intro c hc
    simp [MSALoginDialog.ctor, connect] at hc
    subst hc
    simp
  · intro c hc
    rw [execSetup_ctor] at hc
    simp [readyState, wiring] at hc
    rcases hc with h | h | h | h | h | h | h <;> subst h <;> simp
  · intro out h
    obtain ⟨r, s, hx, rfl⟩ := exec_of_newAccount env w out h
    obtain ⟨_, hsame, _⟩ := exec_ctor_result env w r s hx
    have hc : s.world.calls = w.calls ++ [⟨w.nextId + 1, TaskMethod.start⟩] :=
      hsame.2.2.2.2.2.1
    have hfin : (finish env r s).final.world.calls = s.world.calls := by
      unfold finish
      split
      · rfl
      · split <;> rfl
    simp [callsMade, hfin, hc]

theorem cancel_click_invokes_no_abort_witness :
    Event.click Button.cancel ∈ Env.cancelClicked.loop.take 2
    ∧ MSALoginDialog.newAccount Env.cancelClicked World.empty
        = some (Env.cancelClicked.outcomeAfter (Env.cancelClicked.loop.take 3) .close)
    ∧ callsMade World.empty (Env.cancelClicked.outcomeAfter (Env.cancelClicked.loop.take 3) .close)
        = [⟨1, TaskMethod.start⟩] :=
  ⟨by decide, rfl,
    (cancel_click_invokes_no_abort Env.cancelClicked World.empty).2.2 _ rfl⟩

/-! ### Subscriptions come before `start()` -/

/-- C10. In `exec` of the dialog that `newAccount` has constructed, when the six
connections on the new task have been made `start()` has not been called yet
(the call log is as it was), `exec` goes on by calling `start()` and then
`QDialog::exec`, and from then on every signal of the task, whether emitted
inside `start()` or while the event loop runs, runs exactly the corresponding
dialog handler: `failed` and `aborted` run `reject`, `succeeded` runs
`onTaskSucceeded`, `status`, `showVerificationUriAndCode` and
`hideVerificationUriAndCode` run the slots of the same name. -/
theorem exec_subscribes_before_start (env : Env) (w : World) :
    (MSALoginDialog.execSetup (MSALoginDialog.ctor env w)).1 = w.nextId + 1
    ∧ (MSALoginDialog.execSetup (MSALoginDialog.ctor env w)).2.dlg.m_loginTask
        = some (w.nextId + 1)
    ∧ (MSALoginDialog.execSetup (MSALoginDialog.ctor env w)).2.world.calls = w.calls
    ∧ (∀ p ∈ [(SignalName.failed, Slot.reject), (.succeeded, .onTaskSucceeded),
              (.aborted, .reject), (.status, .onTaskStatus),
              (.showVerificationUriAndCode, .showVerificationUriAndCode),
              (.hideVerificationUriAndCode, .hideVerificationUriAndCode)],
        (⟨.task (w.nextId + 1), p.1, .dialog, p.2⟩ : Connection)
          ∈ (MSALoginDialog.execSetup (MSALoginDialog.ctor env w)).2.dlg.connections)
    ∧ MSALoginDialog.exec env (MSALoginDialog.ctor env w)
        = QDialog.exec env (AccountTask.start env (w.nextId + 1)
            (MSALoginDialog.execSetup (MSALoginDialog.ctor env w)).2)
    ∧ (∀ (sig : TaskSignal) (s : State),
        s.dlg.connections
          = (MSALoginDialog.execSetup (MSALoginDialog.ctor env w)).2.dlg.connections →
        emit (.task (w.nextId + 1)) sig.name (some sig) s = { s with dlg := s.dlg.handler sig })
    ∧ AccountTask.start env (w.nextId + 1)
          (MSALoginDialog.execSetup (MSALoginDialog.ctor env w)).2
        = { world := { (MSALoginDialog.execSetup (MSALoginDialog.ctor env w)).2.world with
                       calls := w.calls ++ [⟨w.nextId + 1, .start⟩] },
            dlg := handlers env.startEmits
                     (MSALoginDialog.execSetup (MSALoginDialog.ctor env w)).2.dlg }
    ∧ (∀ (sig : TaskSignal) (s : State),
        s.dlg.connections
          = (MSALoginDialog.execSetup (MSALoginDialog.ctor env w)).2.dlg.connections →
        s.dlg.m_loginTask = some (w.nextId + 1) →
        handleEvent env (.task sig) s = { s with dlg := s.dlg.handler sig }) := by
  rw [execSetup_ctor]
  refine ⟨rfl, rfl, rfl, ?_, rfl, ?_, ?_, ?_⟩
  · intro p hp
    simp only [List.mem_cons, List.mem_singleton, List.not_mem_nil, or_false] at hp
    rcases hp with h | h | h | h | h | h <;> subst h <;> simp [readyState, wiring]
  · intro sig s hs
    exact emit_task_wired (w.nextId + 1) sig s hs
  · simp only [AccountTask.start]
    rw [emit_all_wired (w.nextId + 1) env.startEmits _ rfl]
    rfl
  · intro sig s hs ht
    exact handleEvent_wired env (w.nextId + 1) (.task sig) s ⟨hs, ht⟩

theorem exec_subscribes_before_start_witness :
    (⟨.task 1, .succeeded, .dialog, .onTaskSucceeded⟩ : Connection)
      ∈ (MSALoginDialog.execSetup (MSALoginDialog.ctor Env.denied World.empty)).2.dlg.connections
    ∧ emit (.task 1) SignalName.status (some (.status "Initializing"))
          (MSALoginDialog.execSetup (MSALoginDialog.ctor Env.denied World.empty)).2
        = { (MSALoginDialog.execSetup (MSALoginDialog.ctor Env.denied World.empty)).2 with
            dlg := (MSALoginDialog.execSetup
              (MSALoginDialog.ctor Env.denied World.empty)).2.dlg.onTaskStatus "Initializing" }
    ∧ handleEvent Env.denied (.task .succeeded) (loopEntry Env.denied World.empty)
        = { loopEntry Env.denied World.empty with
            dlg := (loopEntry Env.denied World.empty).dlg.onTaskSucceeded } :=
  ⟨(exec_subscribes_before_start Env.denied World.empty).2.2.2.1 (.succeeded, .onTaskSucceeded)
      (by decide),
   (exec_subscribes_before_start Env.denied World.empty).2.2.2.2.2.1 (.status "Initializing") _
      rfl,
   (exec_subscribes_before_start Env.denied World.empty).2.2.2.2.2.2.2 .succeeded
      (loopEntry Env.denied World.empty) rfl rfl⟩

/-! ### Attempts that a terminal event of the task ends -/

theorem newAccount_closing (env : Env) (w : World) (pre : List Event) (e : Event)
    (post : List Event) (hloop : env.loop = pre ++ e :: post)
    (hpre : ∀ x ∈ pre, closes env x = false) (he : closes env e = true) :
    MSALoginDialog.newAccount env w
      = some (finish env (react env e (reactAll env pre (loopEntry env w))).dlg.result
          (react env e (reactAll env pre (loopEntry env w)))) := by
  apply newAccount_of_exec
  rw [exec_ctor, hloop,
    eventLoop_closing env (w.nextId + 1) pre e post (loopEntry env w) (loopEntry_wired env w) rfl
      hpre he]
  rfl

theorem closing_same (env : Env) (w : World) (pre : List Event) (e : Event) :
    SameAttempt (loopEntry env w) (react env e (reactAll env pre (loopEntry env w))) :=
  sameAttempt_trans (reactAll_same env pre _) (react_same env e _)

theorem finish_boxes_closing (env : Env) (w : World) (pre : List Event) (e : Event) (r : Int) :
    boxesShown w (finish env r (react env e (reactAll env pre (loopEntry env w))))
      = if r ≠ QDialog.Accepted ∧ env.failReason ≠ none
        then [⟨"Failed", env.getStatus, Icon.Critical⟩] else [] :=
  boxesShown_finish env w r _ (closing_same env w pre e).2.2.2.2.2.2

theorem newAccount_first_closing_terminal (env : Env) (w : World) (pre : List Event)
    (term : TaskSignal) (post : List Event)
    (hloop : env.loop = pre ++ Event.task term :: post)
    (hpre : ∀ x ∈ pre, closes env x = false) (hterm : term.isTerminal = true) :
    ∃ out, MSALoginDialog.newAccount env w = some out
      ∧ (term = .succeeded →
          out.final.dlg.result = QDialog.Accepted
          ∧ out.account = (MSALoginDialog.execSetup (MSALoginDialog.ctor env w)).2.dlg.m_account
          ∧ out.account = some w.nextId
          ∧ out.final.dlg.m_loginTask = some (w.nextId + 1)
          ∧ (w.nextId + 1, w.nextId) ∈ out.final.world.taskAccount)
      ∧ (term ≠ .succeeded →
          out.final.dlg.result = QDialog.Rejected ∧ out.account = none) := by
  refine ⟨_, newAccount_closing env w pre (.task term) post hloop hpre hterm, ?_, ?_⟩
  · intro hs
    subst hs
    obtain ⟨_, h2, h3, _, h5, _, _⟩ := closing_same env w pre (.task .succeeded)
    have hres : (react env (.task .succeeded) (reactAll env pre (loopEntry env w))).dlg.result
        = QDialog.Accepted := rfl
    rw [hres]
    have hacc : (react env (.task .succeeded) (reactAll env pre (loopEntry env w))).dlg.m_account
        = some w.nextId := h3.trans (loopEntry_account env w)
    refine ⟨rfl, ?_, ?_, ?_, ?_⟩
    · rw [execSetup_ctor]; simpa [finish] using hacc
    · simpa [finish] using hacc
    · simpa [finish] using h2.trans (loopEntry_wired env w).2
    · have : (finish env QDialog.Accepted
          (react env (.task .succeeded) (reactAll env pre (loopEntry env w)))).final.world.taskAccount
          = (w.nextId + 1, w.nextId) :: w.taskAccount := by
        simpa [finish] using h5
      rw [this]
      exact List.mem_cons_self _ _
  · intro hs
    have hres : (react env (.task term) (reactAll env pre (loopEntry env w))).dlg.result
        = QDialog.Rejected := by
      cases term <;> simp_all [TaskSignal.isTerminal] <;> rfl
    rw [hres]
    have hne : QDialog.Rejected ≠ QDialog.Accepted := by decide
    refine ⟨?_, ?_⟩
    · unfold finish
      rw [if_neg hne]
      split <;> exact hres
    · unfold finish
      rw [if_neg hne]
      split <;> rfl

theorem processed_split (env : Env) (l : List Event) :
    (∃ pre e post, l = pre ++ e :: post ∧ (∀ x ∈ pre, closes env x = false)
        ∧ closes env e = true ∧ processed env l = pre ++ [e])
    ∨ ((∀ x ∈ l, closes env x = false) ∧ processed env l = l) := by
  induction l with
  | nil => exact Or.inr ⟨by simp, rfl⟩
  | cons e rest ih =>
      cases he : closes env e with
      | true => exact Or.inl ⟨[], e, rest, rfl, by simp, he, by simp [processed, he]⟩
      | false =>
          rcases ih with ⟨pre, c, post, h1, h2, h3, h4⟩ | ⟨h1, h2⟩
          · refine Or.inl ⟨e :: pre, c, post, by simp [h1], ?_, h3, by simp [processed, he, h4]⟩
            intro x hx
            rcases List.mem_cons.mp hx with hx | hx
            · rw [hx]; exact he
            · exact h2 x hx
          · refine Or.inr ⟨?_, by simp [processed, he, h2]⟩
            intro x hx
            rcases List.mem_cons.mp hx with hx | hx
            · rw [hx]; exact he
            · exact h1 x hx

theorem signalsOf_append (xs ys : List Event) :
    signalsOf (xs ++ ys) = signalsOf xs ++ signalsOf ys := by
  induction xs with
  | nil => rfl
  | cons e rest ih => cases e <;> simp [signalsOf, ih]

theorem signalsOf_open_not_terminal (env : Env) (es : List Event)
    (h : ∀ x ∈ es, closes env x = false) :
    (signalsOf es).filter TaskSignal.isTerminal = [] := by
  induction es with
  | nil => rfl
  | cons e rest ih =>
      have hrest := ih (fun x hx => h x (List.mem_cons_of_mem _ hx))
      have he := h e (List.mem_cons_self _ _)
      cases e with
      | task sig =>
          have hsig : sig.isTerminal = false := he
          simp [signalsOf, List.filter_cons, hsig, hrest]
      | click b => simpa [signalsOf] using hrest
      | close => simpa [signalsOf] using hrest

theorem filter_terminal_eq_nil (sigs : List TaskSignal)
    (h : ∀ sig ∈ sigs, sig.isTerminal = false) : sigs.filter TaskSignal.isTerminal = [] :=
  List.filter_eq_nil_iff.mpr (fun x hx => by simp [h x hx])

theorem loop_of_one_terminal (env : Env) (term : TaskSignal)
    (hstart : ∀ sig ∈ env.startEmits, sig.isTerminal = false)
    (hone : env.delivered.filter TaskSignal.isTerminal = [term]) :
    term.isTerminal = true
    ∧ ∃ pre post, env.loop = pre ++ Event.task term :: post
        ∧ ∀ x ∈ pre, closes env x = false := by
  have hloopSig : (signalsOf (processed env env.loop)).filter TaskSignal.isTerminal = [term] := by
    simpa [Env.delivered, List.filter_append, filter_terminal_eq_nil _ hstart] using hone
  rcases processed_split env env.loop with ⟨pre, e, post, h1, h2, h3, h4⟩ | ⟨h1, h2⟩
  · rw [h4, signalsOf_append, List.filter_append, signalsOf_open_not_terminal env pre h2,
      List.nil_append] at hloopSig
    cases e with
    | task sig =>
        have hsig : sig.isTerminal = true := h3
        simp only [signalsOf, List.filter_cons, hsig, if_true, List.filter_nil,
          List.cons.injEq, and_true] at hloopSig
        subst hloopSig
        exact ⟨hsig, pre, post, h1, h2⟩
    | click b => simp [signalsOf] at hloopSig
    | close => simp [signalsOf] at hloopSig
  · rw [h2, signalsOf_open_not_terminal env env.loop h1] at hloopSig
    simp at hloopSig

/-- C2. For every login attempt started by `newAccount` in which the task emits
exactly one terminal event: if that event is `succeeded`, the dialog is accepted
and `newAccount` returns the account created in `exec`, the one whose
`loginMSA()` produced the task; if it is `failed` or `aborted`, the dialog is
rejected and `newAccount` returns null. The events of the attempt are those the
task emits inside `start()` and those the dialog's event loop processes until
the dialog closes; `start()` itself emits no terminal event, since the Login
Task reaches a terminal state only on a network reply, a timer tick or an abort
request. -/
theorem newAccount_one_terminal_event (env : Env) (w : World) (term : TaskSignal)
    (hstart : ∀ sig ∈ env.startEmits, sig.isTerminal = false)
    (hone : env.delivered.filter TaskSignal.isTerminal = [term]) :
    ∃ out, MSALoginDialog.newAccount env w = some out
      ∧ (term = .succeeded →
          out.final.dlg.result = QDialog.Accepted
          ∧ out.account = (MSALoginDialog.execSetup (MSALoginDialog.ctor env w)).2.dlg.m_account
          ∧ out.account = some w.nextId
          ∧ out.final.dlg.m_loginTask = some (w.nextId + 1)
          ∧ (w.nextId + 1, w.nextId) ∈ out.final.world.taskAccount)
      ∧ (term ≠ .succeeded →
          out.final.dlg.result = QDialog.Rejected ∧ out.account = none) := by
  obtain ⟨hterm, pre, post, hloop, hpre⟩ := loop_of_one_terminal env term hstart hone
  exact newAccount_first_closing_terminal env w pre term post hloop hpre hterm

theorem newAccount_one_terminal_event_witness :
    (∃ out, MSALoginDialog.newAccount Env.succeededInLoop World.empty = some out
      ∧ out.final.dlg.result = QDialog.Accepted ∧ out.account = some 0
      ∧ out.final.dlg.m_loginTask = some 1 ∧ (1, 0) ∈ out.final.world.taskAccount)
    ∧ (∃ out, MSALoginDialog.newAccount Env.denied World.empty = some out
      ∧ out.final.dlg.result = QDialog.Rejected ∧ out.account = none) := by
  constructor
  · obtain ⟨out, h, hs, _⟩ := newAccount_one_terminal_event Env.succeededInLoop World.empty
      .succeeded (by decide) (by decide)
    exact ⟨out, h, (hs rfl).1, (hs rfl).2.2.1, (hs rfl).2.2.2.1, (hs rfl).2.2.2.2⟩
  · obtain ⟨out, h, _, hf⟩ := newAccount_one_terminal_event Env.denied World.empty
      (.failed "access_denied") (by decide) (by decide)
    exact ⟨out, h, hf (by decide)⟩

/-! ### The "Failed" message box -/

/-- C3, as stated, fails: the attempt ends with `failed("access_denied")`, the
task's fail reason is that string, one "Failed" box is shown, but its text is
the task's status text, not the fail reason. -/
theorem failed_box_text_is_not_the_reason :
    Env.denied.loop.getLast? = some (.task (.failed "access_denied"))
    ∧ Env.denied.failReason = some "access_denied"
    ∧ (MSALoginDialog.newAccount Env.denied World.empty).map (boxesShown World.empty)
        = some [⟨"Failed", "Encountered an error during authentication.", Icon.Critical⟩]
    ∧ "Encountered an error during authentication." ≠ "access_denied" :=
  ⟨rfl, rfl, rfl, by decide⟩

/-- C3, amended. When the login attempt ends in a terminal failure (`failed` is
the first event to close the dialog, delivered while its event loop runs) and
the task's `failReason()` is the reason carried by that event, `newAccount`
returns null and shows exactly one message box, titled "Failed", whose text is
the task's status string `getStatus()`. -/
theorem failed_shows_one_box_with_status (env : Env) (w : World) (pre : List Event)
    (reason : String) (post : List Event)
    (hloop : env.loop = pre ++ Event.task (.failed reason) :: post)
    (hpre : ∀ x ∈ pre, closes env x = false) (hreason : env.failReason = some reason) :
    ∃ out, MSALoginDialog.newAccount env w = some out
      ∧ out.account = none
      ∧ out.final.dlg.result = QDialog.Rejected
      ∧ boxesShown w out = [⟨"Failed", env.getStatus, Icon.Critical⟩] := by
  refine ⟨_, newAccount_closing env w pre (.task (.failed reason)) post hloop hpre rfl, ?_, ?_, ?_⟩
  · have hres : (react env (.task (.failed reason)) (reactAll env pre (loopEntry env w))).dlg.result
        = QDialog.Rejected := rfl
    rw [hres]
    simp [finish, hreason, QDialog.Rejected, QDialog.Accepted]
  · have hres : (react env (.task (.failed reason)) (reactAll env pre (loopEntry env w))).dlg.result
        = QDialog.Rejected := rfl
    rw [hres]
    simp [finish, hreason, QDialog.Rejected, QDialog.Accepted, react, MSALoginDialog.handler,
      QDialog.reject, QDialog.done]
  · rw [finish_boxes_closing]
    have hres : (react env (.task (.failed reason)) (reactAll env pre (loopEntry env w))).dlg.result
        = QDialog.Rejected := rfl
    simp [hres, hreason, QDialog.Rejected, QDialog.Accepted]

theorem failed_shows_one_box_with_status_witness :
    ∃ out, MSALoginDialog.newAccount Env.denied World.empty = some out
      ∧ out.account = none
      ∧ out.final.dlg.result = QDialog.Rejected
      ∧ boxesShown World.empty out
          = [⟨"Failed", "Encountered an error during authentication.", Icon.Critical⟩] :=
  failed_shows_one_box_with_status Env.denied World.empty (Env.denied.loop.take 2)
    "access_denied" [] rfl (by decide) rfl

/-! ### A code is shown, statuses arrive, the code is withdrawn, the task succeeds -/

theorem handler_ui (sig : TaskSignal) (d1 d2 : MSALoginDialog) (h : d1.ui = d2.ui) :
    (d1.handler sig).ui = (d2.handler sig).ui := by
  cases sig <;>
    simp [MSALoginDialog.handler, QDialog.reject, QDialog.accept, QDialog.done,
      MSALoginDialog.onTaskSucceeded, MSALoginDialog.onTaskStatus,
      MSALoginDialog.showVerificationUriAndCode, MSALoginDialog.hideVerificationUriAndCode, h]

theorem handlers_ui (sigs : List TaskSignal) (d1 d2 : MSALoginDialog) (h : d1.ui = d2.ui) :
    (handlers sigs d1).ui = (handlers sigs d2).ui := by
  induction sigs generalizing d1 d2 with
  | nil => exact h
  | cons sig rest ih => exact ih _ _ (handler_ui sig d1 d2 h)

theorem handlers_append (xs ys : List TaskSignal) (d : MSALoginDialog) :
    handlers (xs ++ ys) d = handlers ys (handlers xs d) := by
  simp [handlers, List.foldl_append]

theorem reactAll_tasks (env : Env) (sigs : List TaskSignal) (s : State) :
    reactAll env (sigs.map Event.task) s = { s with dlg := handlers sigs s.dlg } := by
  induction sigs generalizing s with
  | nil => rfl
  | cons sig rest ih =>
      simp only [List.map_cons, reactAll, List.foldl_cons]
      exact ih _

theorem handlers_statuses_last (statuses : List String) (hn : statuses ≠ [])
    (d : MSALoginDialog) :
    (handlers (statuses.map TaskSignal.status) d).ui.status_text = statuses.getLast hn
    ∧ (handlers (statuses.map TaskSignal.status) d).ui.stackedWidget_currentIndex
        = d.ui.stackedWidget_currentIndex := by
  induction statuses generalizing d with
  | nil => exact absurd rfl hn
  | cons st rest ih =>
      cases rest with
      | nil => exact ⟨rfl, rfl⟩
      | cons st2 rest2 =>
          have := ih (List.cons_ne_nil st2 rest2) (d.handler (.status st))
          simpa [handlers, List.getLast_cons] using this

theorem split_trace_success (env : Env) (w : World) (uri : QUrl) (code : String)
    (expiresIn : Int) (statuses : List String) (inStart inLoop : List TaskSignal)
    (hn : statuses ≠ [])
    (hsplit : inStart ++ inLoop
      = .showVerificationUriAndCode uri code expiresIn
          :: (statuses.map TaskSignal.status ++ [.hideVerificationUriAndCode]))
    (hstart : env.startEmits = inStart)
    (hloop : env.loop = (inLoop ++ [TaskSignal.succeeded]).map Event.task) :
    ∃ out, MSALoginDialog.newAccount env w = some out
      ∧ out.final.dlg.ui.stackedWidget_currentIndex = 0
      ∧ out.final.dlg.ui.status_text = statuses.getLast hn
      ∧ out.final.dlg.result = QDialog.Accepted
      ∧ out.account = some w.nextId
      ∧ out.account = (MSALoginDialog.execSetup (MSALoginDialog.ctor env w)).2.dlg.m_account
      ∧ boxesShown w out = [] := by
  have hmem : ∀ x ∈ inLoop, x.isTerminal = false := by
    intro x hx
    have : x ∈ inStart ++ inLoop := List.mem_append_right _ hx
    rw [hsplit] at this
    simp only [List.mem_cons, List.mem_append, List.mem_map, List.mem_singleton,
      List.not_mem_nil, or_false] at this
    rcases this with h | ⟨st, _, h⟩ | h <;> subst h <;> rfl
  have hpre : ∀ x ∈ inLoop.map Event.task, closes env x = false := by
    intro x hx
    obtain ⟨sig, hsig, rfl⟩ := List.mem_map.mp hx
    exact hmem sig hsig
  have hloop2 : env.loop = inLoop.map Event.task ++ Event.task .succeeded :: [] := by
    rw [hloop]; simp
  have hnew := newAccount_closing env w (inLoop.map Event.task) (.task .succeeded) [] hloop2
    hpre rfl
  have hres : (react env (.task .succeeded)
      (reactAll env (inLoop.map Event.task) (loopEntry env w))).dlg.result = QDialog.Accepted := rfl
  rw [hres] at hnew
  have hacc : (react env (.task .succeeded)
      (reactAll env (inLoop.map Event.task) (loopEntry env w))).dlg.m_account = some w.nextId :=
    (closing_same env w _ _).2.2.1.trans (loopEntry_account env w)
  have hui : (react env (.task .succeeded)
      (reactAll env (inLoop.map Event.task) (loopEntry env w))).dlg.ui
      = (handlers (.showVerificationUriAndCode uri code expiresIn
          :: (statuses.map TaskSignal.status ++ [.hideVerificationUriAndCode]))
          (readyState env w).dlg).ui := by
    rw [reactAll_tasks, ← hsplit, handlers_append]
    have h1 : (loopEntry env w).dlg.ui = (handlers inStart (readyState env w).dlg).ui := by
      rw [← hstart]; rfl
    exact handlers_ui inLoop _ _ h1
  have hlast := handlers_statuses_last statuses hn
    ((readyState env w).dlg.handler (.showVerificationUriAndCode uri code expiresIn))
  have hshape : handlers (.showVerificationUriAndCode uri code expiresIn
        :: (statuses.map TaskSignal.status ++ [.hideVerificationUriAndCode]))
        (readyState env w).dlg
      = (handlers (statuses.map TaskSignal.status)
          ((readyState env w).dlg.handler
            (.showVerificationUriAndCode uri code expiresIn))).hideVerificationUriAndCode := by
    simp [handlers, List.foldl_append, MSALoginDialog.handler]
  refine ⟨_, hnew, ?_, ?_, rfl, ?_, ?_, ?_⟩
  · simp only [finish, if_true]
    rw [hui, hshape]
    rfl
  · simp only [finish, if_true]
    rw [hui, hshape]
    exact hlast.1
  · simpa [finish] using hacc
  · rw [execSetup_ctor]; simpa [finish] using hacc
  · rw [finish_boxes_closing]
    simp

/-- C7. For every n >= 1 and every event trace of the form
showVerificationUriAndCode(u, c, e), status(s1), ..., status(sn),
hideVerificationUriAndCode, succeeded delivered to the dialog in that order, the
dialog ends on page index 0, its status label shows exactly sn (the last status
delivered), the dialog result is Accepted, and `newAccount` returns the account
created in `exec` without showing a message box. The trace is what the task
emits inside `start()` followed by what the event loop delivers, split at any
point; `start()` itself emits no terminal event, since the Login Task reaches a
terminal state only on a network reply, a timer tick or an abort request. -/
theorem trace_ends_accepted (env : Env) (w : World) (uri : QUrl) (code : String)
    (expiresIn : Int) (statuses : List String) (inLoop : List TaskSignal)
    (hn : statuses ≠ [])
    (hstart : ∀ sig ∈ env.startEmits, sig.isTerminal = false)
    (hloop : env.loop = inLoop.map Event.task)
    (htrace : env.startEmits ++ inLoop
      = .showVerificationUriAndCode uri code expiresIn
          :: (statuses.map TaskSignal.status
                ++ [.hideVerificationUriAndCode, TaskSignal.succeeded])) :
    ∃ out, MSALoginDialog.newAccount env w = some out
      ∧ out.final.dlg.ui.stackedWidget_currentIndex = 0
      ∧ out.final.dlg.ui.status_text = statuses.getLast hn
      ∧ out.final.dlg.result = QDialog.Accepted
      ∧ out.account = some w.nextId
      ∧ out.account = (MSALoginDialog.execSetup (MSALoginDialog.ctor env w)).2.dlg.m_account
      ∧ boxesShown w out = [] := by
  have htrace2 : env.startEmits ++ inLoop
      = (.showVerificationUriAndCode uri code expiresIn
          :: (statuses.map TaskSignal.status ++ [.hideVerificationUriAndCode]))
        ++ [TaskSignal.succeeded] := by
    rw [htrace]; simp
  rcases List.eq_nil_or_concat inLoop with hnil | ⟨init, l, hl⟩
  · exfalso
    rw [hnil, List.append_nil] at htrace2
    have hmem : TaskSignal.succeeded ∈ env.startEmits := by rw [htrace2]; simp
    exact Bool.noConfusion (hstart _ hmem)
  · subst hl
    rw [List.concat_eq_append] at htrace2 hloop
    rw [← List.append_assoc] at htrace2
    obtain ⟨hbody, hlast⟩ := List.append_inj' htrace2 rfl
    have hl2 : l = TaskSignal.succeeded := by simpa using hlast
    subst hl2
    exact split_trace_success env w uri code expiresIn statuses env.startEmits init hn hbody rfl
      hloop

theorem trace_ends_accepted_witness :
    ∃ out, MSALoginDialog.newAccount Env.traceInLoop World.empty = some out
      ∧ out.final.dlg.ui.stackedWidget_currentIndex = 0
      ∧ out.final.dlg.ui.status_text = "Still waiting"
      ∧ out.final.dlg.result = QDialog.Accepted
      ∧ out.account = some 0
      ∧ boxesShown World.empty out = [] := by
  obtain ⟨out, h1, h2, h3, h4, h5, _, h7⟩ := trace_ends_accepted Env.traceInLoop World.empty
    ⟨"https://provider/device"⟩ "ABCD-1234" 900 ["Waiting", "Still waiting"]
    [.status "Waiting", .status "Still waiting", .hideVerificationUriAndCode, .succeeded]
    (by decide) (by decide) rfl rfl
  exact ⟨out, h1, h2, h3, h4, h5, h7⟩

/-! ### Every `exec` makes its own account and task -/

theorem kept_refl (s : State) : Kept s s := ⟨rfl, rfl, rfl, rfl, rfl⟩

theorem kept_trans {a b c : State} (h1 : Kept a b) (h2 : Kept b c) : Kept a c := by
  obtain ⟨a1, a2, a3, a4, a5⟩ := h1
  obtain ⟨b1, b2, b3, b4, b5⟩ := h2
  exact ⟨b1.trans a1, b2.trans a2, b3.trans a3, b4.trans a4, b5.trans a5⟩

theorem invoke_kept (c : Connection) (args : Option TaskSignal) (s : State) :
    Kept s (invoke c args s) := by
  unfold invoke
  split
  · exact ⟨rfl, rfl, rfl, rfl, rfl⟩
  · exact ⟨rfl, rfl, rfl, rfl, rfl⟩
  · exact ⟨rfl, rfl, rfl, rfl, rfl⟩
  · exact ⟨rfl, rfl, rfl, rfl, rfl⟩
  · exact ⟨rfl, rfl, rfl, rfl, rfl⟩
  · exact ⟨rfl, rfl, rfl, rfl, rfl⟩
  · refine ⟨rfl, rfl, rfl, rfl, ?_⟩
    simp [startCalls, List.filter_append]
  · exact kept_refl s

theorem invokeAll_kept (cs : List Connection) (args : Option TaskSignal) (s : State) :
    Kept s (cs.foldl (fun s c => invoke c args s) s) := by
  induction cs generalizing s with
  | nil => exact kept_refl s
  | cons c rest ih => exact kept_trans (invoke_kept c args s) (ih _)

theorem emit_kept (sender : Sender) (signal : SignalName) (args : Option TaskSignal)
    (s : State) : Kept s (emit sender signal args s) :=
  invokeAll_kept _ args s

theorem emitAll_kept (t : ObjId) (sigs : List TaskSignal) (s : State) :
    Kept s (sigs.foldl (fun s sig => emit (.task t) sig.name (some sig) s) s) := by
  induction sigs generalizing s with
  | nil => exact kept_refl s
  | cons sig rest ih => exact kept_trans (emit_kept _ _ _ s) (ih _)

theorem handleEvent_kept (env : Env) (e : Event) (s : State) : Kept s (handleEvent env e s) := by
  cases e with
  | task sig =>
      simp only [handleEvent]
      split
      · exact emit_kept _ _ _ s
      · exact kept_refl s
  | click b =>
      cases b with
      | copyCode => exact emit_kept _ _ _ s
      | cancel =>
          simp only [handleEvent]
          refine kept_trans ?_ (emit_kept _ _ _ _)
          split
          · exact ⟨rfl, rfl, rfl, rfl, rfl⟩
          · exact kept_refl s
  | close => exact ⟨rfl, rfl, rfl, rfl, rfl⟩

theorem eventLoop_kept (env : Env) (es : List Event) (s s1 : State)
    (h : QDialog.eventLoop env es s = some s1) : Kept s s1 := by
  induction es generalizing s with
  | nil => simp [QDialog.eventLoop] at h
  | cons e rest ih =>
      simp only [QDialog.eventLoop] at h
      split at h
      · exact kept_trans (handleEvent_kept env e s) (ih _ h)
      · cases h
        exact handleEvent_kept env e s

/-- C8. Every call of `exec`, in whatever state the dialog and the world are,
creates a new account and a new login task obtained from that account (both are
objects allocated by this call), stores them in `m_account` and `m_loginTask` in
place of whatever was held before, and calls `start()` exactly once, on the new
task; this holds when the event loop is entered and still when `exec` returns.
Hence two `newAccount` calls in a row work on different tasks, and the only call
the second one makes is `start()` on its own task. -/
theorem exec_makes_new_account_and_task (env : Env) (s : State) :
    (MSALoginDialog.execSetup s).1 = s.world.nextId + 1
    ∧ (AccountTask.start env (s.world.nextId + 1) (MSALoginDialog.execSetup s).2).dlg.m_account
        = some s.world.nextId
    ∧ (AccountTask.start env (s.world.nextId + 1) (MSALoginDialog.execSetup s).2).dlg.m_loginTask
        = some (s.world.nextId + 1)
    ∧ startCalls
        (AccountTask.start env (s.world.nextId + 1) (MSALoginDialog.execSetup s).2).world.calls
        = startCalls s.world.calls ++ [⟨s.world.nextId + 1, .start⟩]
    ∧ (∀ r s1, MSALoginDialog.exec env s = some (r, s1) →
        s1.dlg.m_account = some s.world.nextId
        ∧ s1.dlg.m_loginTask = some (s.world.nextId + 1)
        ∧ s1.world.taskAccount = (s.world.nextId + 1, s.world.nextId) :: s.world.taskAccount
        ∧ s1.world.nextId = s.world.nextId + 2
        ∧ startCalls s1.world.calls = startCalls s.world.calls ++ [⟨s.world.nextId + 1, .start⟩])
    ∧ (∀ env2 out out2, MSALoginDialog.newAccount env s.world = some out →
        MSALoginDialog.newAccount env2 out.final.world = some out2 →
        out.final.dlg.m_loginTask = some (s.world.nextId + 1)
        ∧ out2.final.dlg.m_loginTask = some (s.world.nextId + 3)
        ∧ out2.final.dlg.m_account = some (s.world.nextId + 2)
        ∧ callsMade out.final.world out2 = [⟨s.world.nextId + 3, .start⟩]) := by
  have hstart : Kept
      ({ (MSALoginDialog.execSetup s).2 with
          world := { (MSALoginDialog.execSetup s).2.world with
            calls := (MSALoginDialog.execSetup s).2.world.calls
              ++ [⟨s.world.nextId + 1, .start⟩] } } : State)
      (AccountTask.start env (s.world.nextId + 1) (MSALoginDialog.execSetup s).2) :=
    emitAll_kept _ env.startEmits _
  obtain ⟨k1, k2, k3, k4, k5⟩ := hstart
  have hcalls : startCalls
      (AccountTask.start env (s.world.nextId + 1) (MSALoginDialog.execSetup s).2).world.calls
      = startCalls s.world.calls ++ [⟨s.world.nextId + 1, .start⟩] := by
    rw [k5]
    simp [startCalls, List.filter_append, MSALoginDialog.execSetup,
      MinecraftAccount.createBlankMSA, MinecraftAccount.loginMSA]
  refine ⟨rfl, k1, k2, hcalls, ?_, ?_⟩
  · intro r s1 h
    simp only [MSALoginDialog.exec, QDialog.exec] at h
    cases hl : QDialog.eventLoop env env.loop
        { AccountTask.start env (MSALoginDialog.execSetup s).1 (MSALoginDialog.execSetup s).2 with
          dlg := { (AccountTask.start env (MSALoginDialog.execSetup s).1
                     (MSALoginDialog.execSetup s).2).dlg with
                   result := 0, inEventLoop := true } } with
    | none => simp [hl] at h
    | some s2 =>
        simp only [hl, Option.map_some', Option.some.injEq, Prod.mk.injEq] at h
        obtain ⟨_, hs⟩ := h
        subst hs
        obtain ⟨e1, e2, e3, e4, e5⟩ := eventLoop_kept env env.loop _ s2 hl
        exact ⟨e1.trans k1, e2.trans k2, e4.trans k4, e3.trans k3, e5.trans hcalls⟩
  · intro env2 out out2 h1 h2
    obtain ⟨r, s1, hx, rfl⟩ := exec_of_newAccount env s.world out h1
    obtain ⟨_, hsame, _⟩ := exec_ctor_result env s.world r s1 hx
    have hw : (finish env r s1).final.world.nextId = s.world.nextId + 2 := by
      have : s1.world.nextId = s.world.nextId + 2 := hsame.2.2.2.1
      unfold finish
      split
      · exact this
      · split <;> exact this
    have ht : (finish env r s1).final.dlg.m_loginTask = some (s.world.nextId + 1) := by
      have : s1.dlg.m_loginTask = some (s.world.nextId + 1) :=
        hsame.2.1.trans (loopEntry_wired env s.world).2
      unfold finish
      split
      · exact this
      · split <;> exact this
    obtain ⟨r2, s2, hx2, rfl⟩ := exec_of_newAccount env2 _ out2 h2
    obtain ⟨_, hsame2, _⟩ := exec_ctor_result env2 _ r2 s2 hx2
    have ht2 : (finish env2 r2 s2).final.dlg.m_loginTask = some (s.world.nextId + 3) := by
      have : s2.dlg.m_loginTask = some ((finish env r s1).final.world.nextId + 1) :=
        hsame2.2.1.trans (loopEntry_wired env2 _).2
      rw [hw] at this
      unfold finish
      split
      · exact this
      · split <;> exact this
    have ha2 : (finish env2 r2 s2).final.dlg.m_account = some (s.world.nextId + 2) := by
      have : s2.dlg.m_account = some ((finish env r s1).final.world.nextId) :=
        hsame2.2.2.1.trans (loopEntry_account env2 _)
      rw [hw] at this
      unfold finish
      split
      · exact this
      · split <;> exact this
    have hc2 : callsMade (finish env r s1).final.world (finish env2 r2 s2)
        = [⟨s.world.nextId + 3, .start⟩] := by
      have hc : s2.world.calls = (finish env r s1).final.world.calls
          ++ [⟨(finish env r s1).final.world.nextId + 1, TaskMethod.start⟩] :=
        hsame2.2.2.2.2.2.1
      rw [hw] at hc
      have hfin : (finish env2 r2 s2).final.world.calls = s2.world.calls := by
        unfold finish
        split
        · rfl
        · split <;> rfl
      simp [callsMade, hfin, hc]
    exact ⟨ht, ht2, ha2, hc2⟩

theorem exec_makes_new_account_and_task_witness :
    State.afterFirstAttempt.dlg.m_account = some 0
    ∧ State.afterFirstAttempt.dlg.m_loginTask = some 1
    ∧ ∃ r s1, MSALoginDialog.exec Env.abortedNull State.afterFirstAttempt = some (r, s1)
        ∧ s1.dlg.m_account = some 2 ∧ s1.dlg.m_loginTask = some 3
        ∧ startCalls s1.world.calls = [⟨1, .start⟩, ⟨3, .start⟩] := by
  refine ⟨rfl, rfl, ?_⟩
  have hsome : (MSALoginDialog.exec Env.abortedNull State.afterFirstAttempt).isSome = true := rfl
  obtain ⟨p, hp⟩ := Option.isSome_iff_exists.mp hsome
  obtain ⟨r, s1⟩ := p
  obtain ⟨h1, h2, _, _, h5⟩ :=
    (exec_makes_new_account_and_task Env.abortedNull State.afterFirstAttempt).2.2.2.2.1 r s1 hp
  exact ⟨r, s1, hp, h1, h2, h5⟩

/-! ### One terminal event per task -/

namespace LoginTask

theorem Shape.count_le_one {st : FlowState} {evs : List StatusEvent} (h : Shape st evs) :
    (evs.filter StatusEvent.isTerminal).length = if st.isTerminal = true then 1 else 0 := by
  unfold Shape at h
  split at h
  · rename_i hst
    obtain ⟨pre, e, rfl, he, hpre⟩ := h
    have : pre.filter StatusEvent.isTerminal = [] :=
      List.filter_eq_nil_iff.mpr (fun x hx => by simp [hpre x hx])
    simp [List.filter_append, this, he, hst]
  · rename_i hst
    have : evs.filter StatusEvent.isTerminal = [] :=
      List.filter_eq_nil_iff.mpr (fun x hx => by simp [h x hx])
    simp [this, hst]

theorem Shape.terminal_is_last {st : FlowState} {evs : List StatusEvent} (h : Shape st evs)
    (pre : List StatusEvent) (e : StatusEvent) (post : List StatusEvent)
    (hsplit : evs = pre ++ e :: post) (he : e.isTerminal = true) :
    post = [] ∧ ∀ x ∈ pre, x.isTerminal = false := by
  unfold Shape at h
  split at h
  · obtain ⟨pre0, e0, h0, _, hpre0⟩ := h
    rcases List.eq_nil_or_concat post with hp | ⟨init, l, hp⟩
    · subst hp
      rw [hsplit] at h0
      have := List.append_inj' h0 rfl
      refine ⟨rfl, ?_⟩
      rw [this.1]
      exact hpre0
    · exfalso
      subst hp
      rw [hsplit] at h0
      have h1 : (pre ++ e :: init) ++ [l] = pre0 ++ [e0] := by
        rw [← h0]; simp
      have := (List.append_inj' h1 rfl).1
      have hmem : e ∈ pre0 := by rw [← this]; simp
      rw [hpre0 e hmem] at he
      exact Bool.noConfusion he
  · exfalso
    have hmem : e ∈ evs := by rw [hsplit]; simp
    rw [h e hmem] at he
    exact Bool.noConfusion he

end LoginTask

theorem LoginTask.Task.run_append (t : LoginTask.Task) (xs ys : List LoginTask.Input) :
    LoginTask.Task.run t (xs ++ ys)
      = ((LoginTask.Task.run (LoginTask.Task.run t xs).1 ys).1,
         (LoginTask.Task.run t xs).2 ++ (LoginTask.Task.run (LoginTask.Task.run t xs).1 ys).2) := by
  induction xs generalizing t with
  | nil => simp [LoginTask.Task.run]
  | cons x rest ih => simp [LoginTask.Task.run, ih, List.append_assoc]

theorem LoginTask.Task.run_then_abort (t : LoginTask.Task) (inputs : List LoginTask.Input) :
    (LoginTask.Task.run t (inputs ++ [.abort])).1.state.isTerminal = true := by
  rw [LoginTask.Task.run_append]
  cases h : (LoginTask.Task.run t inputs).1.state.isTerminal with
  | true => simp [LoginTask.Task.run, LoginTask.Task.step, h]
  | false =>
      simp only [LoginTask.Task.run, LoginTask.Task.step, h]
      rfl

theorem LoginTask.Task.start_emits_nothing (t : LoginTask.Task) :
    (LoginTask.Task.step t .start).2 = [] := by
  unfold LoginTask.Task.step
  split
  · rfl
  · cases t.state <;> rfl

theorem slotsRun_wiring (t : ObjId) (sig : TaskSignal) :
    (slotsRun (wiring t) t sig).length = 1 := by
  cases sig <;> simp [slotsRun, wiring, TaskSignal.name]

theorem terminalHandlerRuns_wiring (t : ObjId) (sigs : List TaskSignal) :
    terminalHandlerRuns (wiring t) t sigs = (sigs.filter TaskSignal.isTerminal).length := by
  unfold terminalHandlerRuns
  induction sigs.filter TaskSignal.isTerminal with
  | nil => rfl
  | cons sig rest ih => simp [slotsRun_wiring, ih, Nat.add_comm]

theorem toSignal_isTerminal (e : LoginTask.StatusEvent) :
    e.toSignal.isTerminal = e.isTerminal := by
  cases e <;> rfl

theorem filter_terminal_map_toSignal (evs : List LoginTask.StatusEvent) :
    ((evs.map LoginTask.StatusEvent.toSignal).filter TaskSignal.isTerminal).length
      = (evs.filter LoginTask.StatusEvent.isTerminal).length := by
  induction evs with
  | nil => rfl
  | cons e rest ih =>
      cases he : e.isTerminal <;>
        simp [List.filter_cons, toSignal_isTerminal, he, ih]

/-- C6. A Login Task run from its initial state on any sequence of inputs emits
at most one terminal event (Succeeded, Failed or Aborted), it has emitted
exactly one if and only if it is in a terminal state, nothing is emitted after
the terminal event and a task in a terminal state stays as it is and emits
nothing more whatever further inputs arrive; in particular once Aborted is
emitted no Failed or Succeeded event is emitted. Delivered through the
connections that `exec` makes, the events therefore run the dialog's
succeeded/failed/aborted handlers at most once in total. A terminal state can
always be reached: after an abort request the task is in one. -/
theorem loginTask_one_terminal_event (inputs : List LoginTask.Input) :
    ((LoginTask.Task.run LoginTask.Task.init inputs).2.filter
        LoginTask.StatusEvent.isTerminal).length ≤ 1
    ∧ ((LoginTask.Task.run LoginTask.Task.init inputs).1.state.isTerminal = true ↔
        ((LoginTask.Task.run LoginTask.Task.init inputs).2.filter
          LoginTask.StatusEvent.isTerminal).length = 1)
    ∧ (∀ pre e post, (LoginTask.Task.run LoginTask.Task.init inputs).2 = pre ++ e :: post →
        e.isTerminal = true → post = [] ∧ ∀ x ∈ pre, x.isTerminal = false)
    ∧ ((LoginTask.Task.run LoginTask.Task.init inputs).1.state.isTerminal = true →
        ∀ more, LoginTask.Task.run (LoginTask.Task.run LoginTask.Task.init inputs).1 more
          = ((LoginTask.Task.run LoginTask.Task.init inputs).1, []))
    ∧ (LoginTask.StatusEvent.Aborted ∈ (LoginTask.Task.run LoginTask.Task.init inputs).2 →
        ∀ e ∈ (LoginTask.Task.run LoginTask.Task.init inputs).2,
          e.isTerminal = true → e = LoginTask.StatusEvent.Aborted)
    ∧ (∀ (env : Env) (w : World),
        terminalHandlerRuns
          (MSALoginDialog.execSetup (MSALoginDialog.ctor env w)).2.dlg.connections
          (MSALoginDialog.execSetup (MSALoginDialog.ctor env w)).1
          ((LoginTask.Task.run LoginTask.Task.init inputs).2.map
            LoginTask.StatusEvent.toSignal) ≤ 1)
    ∧ (LoginTask.Task.run LoginTask.Task.init (inputs ++ [.abort])).1.state.isTerminal = true := by
  have hshape := LoginTask.Task.run_shape LoginTask.Task.init rfl inputs
  have hcount := hshape.count_le_one
  have hle : ((LoginTask.Task.run LoginTask.Task.init inputs).2.filter
      LoginTask.StatusEvent.isTerminal).length ≤ 1 := by
    rw [hcount]; split <;> simp
  refine ⟨hle, ?_, ?_, ?_, ?_, ?_, LoginTask.Task.run_then_abort _ inputs⟩
  · rw [hcount]
    constructor
    · intro h; simp [h]
    · intro h
      by_contra hn
      simp [hn] at h
  · intro pre e post hsplit he
    exact hshape.terminal_is_last pre e post hsplit he
  · intro hterm more
    exact LoginTask.Task.run_of_terminal _ hterm more
  · intro hab e he hterm
    obtain ⟨pre, post, hsplit⟩ := List.append_of_mem hab
    obtain ⟨hpost, hpre⟩ := hshape.terminal_is_last pre _ post hsplit rfl
    subst hpost
    rw [hsplit] at he
    rcases List.mem_append.mp he with hm | hm
    · rw [hpre e hm] at hterm
      exact Bool.noConfusion hterm
    · simpa using hm
  · intro env w
    rw [execSetup_ctor]
    show terminalHandlerRuns (wiring (w.nextId + 1)) (w.nextId + 1) _ ≤ 1
    rw [terminalHandlerRuns_wiring, filter_terminal_map_toSignal]
    exact hle

theorem loginTask_one_terminal_event_witness :
    (LoginTask.Task.run LoginTask.Task.init LoginTask.abortedRun).2
      = [ .CodeIssued ⟨"https://provider/device"⟩ "ABCD-1234" 900,
          .StatusMessage "Waiting for authorization", .Aborted ]
    ∧ (∀ e ∈ (LoginTask.Task.run LoginTask.Task.init LoginTask.abortedRun).2,
        e.isTerminal = true → e = LoginTask.StatusEvent.Aborted)
    ∧ LoginTask.Task.run (LoginTask.Task.run LoginTask.Task.init LoginTask.abortedRun).1
        [.pollReply (.Success "tok-2"), .abort]
        = ((LoginTask.Task.run LoginTask.Task.init LoginTask.abortedRun).1, []) :=
  ⟨rfl,
   (loginTask_one_terminal_event LoginTask.abortedRun).2.2.2.2.1 (by decide),
   (loginTask_one_terminal_event LoginTask.abortedRun).2.2.2.1 rfl _⟩
